import Mathlib

/-!
Verification development for the calendar synchronization engine of this
repository (backend/cal).  The Lean definitions below are a shallow
embedding of the Python source:

* `backend/cal/services/sync.py`   — Google / Microsoft sync + upserts
* `backend/cal/services/ics.py`    — ICS feed sync + upsert
* `backend/cal/services/free_time_calculator.py` — free/busy aggregation
* `backend/cal/utils/recurrence.py` — recurrence expansion, composite ids
* `backend/cal/router.py`          — composite-id parsing (get_event_by_id)
* `backend/cal/services/webhook.py` — Microsoft notification processing
* `backend/cal/oauth/router.py`    — OAuth state lifecycle

Datetimes are modelled as integers (minutes since an arbitrary epoch, so a
day is 1440 and `.hour` is `(t % 1440) / 60`).  Database rows are lists of
records carried through explicit state; a Python exception and the
subsequent session rollback is an `Except.error` result that leaves the
committed state unchanged.  External network calls (the provider fetch,
the ICS HTTP response) are passed in as explicit arguments, matching the
data the source receives from them.
-/

/-- `EventStatus` enum from backend/cal/models.py. -/
inductive EventStatus where
  | confirmed
  | tentative
  | cancelled
deriving DecidableEq, Repr

/-- `SyncStatus` enum from backend/cal/models.py. -/
inductive SyncStatus where
  | pending
  | synced
  | failed
  | deleted
deriving DecidableEq, Repr

/-- The columns of a `CalendarEvent` row (backend/cal/models.py) that the
sync code reads or writes, for a single connection.  The purely
descriptive JSON payloads (attendees, reminders, provider metadata) are
carried as opaque optional strings.  The unique constraint
`(calendar_connection_id, provider_event_id)` of the table appears in
theorems as a `Nodup` hypothesis on `providerEventId`. -/
structure EventRow where
  providerEventId : String
  title : String
  description : Option String
  location : Option String
  startTime : Int
  endTime : Int
  isAllDay : Bool
  timezone : String
  status : EventStatus
  syncStatus : SyncStatus
  htmlLink : Option String
  attendeesPayload : Option String
  remindersPayload : Option String
  isRecurring : Bool
  recurrenceRule : Option String
  seriesMasterId : Option String
  importance : Option String
  teamsEnabled : Bool
  teamsMeetingUrl : Option String
  teamsConferenceId : Option String
  lastSyncedAt : Option Int
  updatedAt : Option Int
  deletedAt : Option Int
deriving DecidableEq, Repr

/-- Sync statistics dictionary built by the sync entry points
(`{"total_events": .., "new_events": .., "updated_events": ..,
"deleted_events": ..}`). -/
structure SyncStats where
  totalEvents : Nat
  newEvents : Nat
  updatedEvents : Nat
  deletedEvents : Nat
deriving DecidableEq, Repr

def SyncStats.zero : SyncStats := ⟨0, 0, 0, 0⟩

/-- Result string returned by the `_upsert_*_event` helpers. -/
inductive UpsertResult where
  | new
  | updated
  | deleted
  | skipped
deriving DecidableEq, Repr

/-- Tally one upsert result into the stats dictionary, as the
`for … in events` loops of sync.py do (`skipped` increments only the
total, matching the ICS loop where "skipped" matches no branch). -/
def SyncStats.record (s : SyncStats) (r : UpsertResult) : SyncStats :=
  let s := { s with totalEvents := s.totalEvents + 1 }
  match r with
  | .new => { s with newEvents := s.newEvents + 1 }
  | .updated => { s with updatedEvents := s.updatedEvents + 1 }
  | .deleted => { s with deletedEvents := s.deletedEvents + 1 }
  | .skipped => s

/-- Membership test for the substring checks `"sync required" in str(e)`
and `"INVALID_DELTA_TOKEN" in str(e)` of sync.py: does `pat` occur as a
contiguous run inside `s`? -/
def listHasSub (pat : List Char) : List Char → Bool
  | [] => pat.isEmpty
  | c :: t => pat.isPrefixOf (c :: t) || listHasSub pat t

def strHasSub (s pat : String) : Bool := listHasSub pat.data s.data

/-- `str.lower()` applied character-wise, as Python does for the
`str(e).lower()` membership test. -/
def strToLower (s : String) : String := String.mk (s.data.map Char.toLower)

/-- `db.query(CalendarEvent).filter(connection, provider_event_id).first()`:
the first row of the connection with the given provider event id. -/
def findEvent (db : List EventRow) (pid : String) : Option EventRow :=
  db.find? (fun r => r.providerEventId = pid)

/-- `setattr` on the row object returned by `.first()`: rewrite the first
row with the given provider event id, leave every other row alone. -/
def updateFirst (db : List EventRow) (pid : String) (f : EventRow → EventRow) :
    List EventRow :=
  match db with
  | [] => []
  | r :: rest =>
      if r.providerEventId = pid then f r :: rest
      else r :: updateFirst rest pid f

/-- The soft-delete write shared by every deletion site of sync.py and
ics.py: `deleted_at = utcnow(); sync_status = SyncStatus.DELETED`. -/
def softDelete (now : Int) (r : EventRow) : EventRow :=
  { r with deletedAt := some now, syncStatus := .deleted }

/-! ### Google sync (backend/cal/services/sync.py) -/

/-- The fields of a `GoogleEvent` (backend/cal/oauth/google.py) read by
`_upsert_google_event`.  `end` is a Python attribute name; here it is
`endTime`. -/
structure GoogleEvent where
  id : String
  status : String
  summary : String
  description : Option String
  location : Option String
  start : Int
  endTime : Int
  isAllDay : Bool
  timezone : String
  htmlLink : Option String
  attendeesPayload : Option String
  remindersPayload : Option String
  recurrence : List String
  recurringEventId : Option String
deriving DecidableEq, Repr

/-- `status_map.get(google_event.status, EventStatus.CONFIRMED)` of
`_upsert_google_event`. -/
def googleStatusMap (s : String) : EventStatus :=
  if s = "confirmed" then .confirmed
  else if s = "tentative" then .tentative
  else if s = "cancelled" then .cancelled
  else .confirmed

/-- The `event_data` dictionary of `_upsert_google_event` applied to a row
(`setattr` on update; constructor keywords on insert).  Fields of the row
not among the dictionary's keys are untouched. -/
def googleEventData (g : GoogleEvent) (now : Int) (r : EventRow) : EventRow :=
  { r with
    title := g.summary
    description := g.description
    location := g.location
    startTime := g.start
    endTime := g.endTime
    isAllDay := g.isAllDay
    timezone := g.timezone
    status := googleStatusMap g.status
    syncStatus := .synced
    htmlLink := g.htmlLink
    attendeesPayload := g.attendeesPayload
    remindersPayload := g.remindersPayload
    isRecurring := !g.recurrence.isEmpty || g.recurringEventId.isSome
    recurrenceRule := g.recurrence.head?
    lastSyncedAt := some now
    deletedAt := none }

/-- A fresh `CalendarEvent` row created by `_upsert_google_event` when no
row with the provider event id exists.  Columns the insert does not set
take their model defaults. -/
def googleNewRow (g : GoogleEvent) (now : Int) : EventRow :=
  googleEventData g now
    { providerEventId := g.id
      title := ""
      description := none
      location := none
      startTime := 0
      endTime := 0
      isAllDay := false
      timezone := "UTC"
      status := .confirmed
      syncStatus := .synced
      htmlLink := none
      attendeesPayload := none
      remindersPayload := none
      isRecurring := false
      recurrenceRule := none
      seriesMasterId := none
      importance := none
      teamsEnabled := false
      teamsMeetingUrl := none
      teamsConferenceId := none
      lastSyncedAt := none
      updatedAt := none
      deletedAt := none }

/-- `_upsert_google_event` from sync.py: soft-delete on a `cancelled`
status, otherwise update every mapped field of the existing row (also
stamping `updated_at`) or insert a new row. -/
def upsertGoogleEvent (db : List EventRow) (g : GoogleEvent) (now : Int) :
    List EventRow × UpsertResult :=
  match findEvent db g.id with
  | some _ =>
      if g.status = "cancelled" then
        (updateFirst db g.id (softDelete now), .deleted)
      else
        (updateFirst db g.id
          (fun r => { googleEventData g now r with updatedAt := some now }),
         .updated)
  | none =>
      if g.status = "cancelled" then (db, .deleted)
      else (db ++ [googleNewRow g now], .new)

/-- The `for google_event in events` loop of `sync_google_events`,
carrying the database and the stats dictionary through the iterations. -/
def processGoogleBatchAux (db : List EventRow) (stats : SyncStats)
    (evs : List GoogleEvent) (now : Int) : List EventRow × SyncStats :=
  match evs with
  | [] => (db, stats)
  | g :: rest =>
      let (db', res) := upsertGoogleEvent db g now
      processGoogleBatchAux db' (stats.record res) rest now

def processGoogleBatch (db : List EventRow) (evs : List GoogleEvent) (now : Int) :
    List EventRow × SyncStats :=
  processGoogleBatchAux db SyncStats.zero evs now

/-- The connection state `sync_google_events` reads and writes: the stored
cursor (`sync_token`, empty string counting as absent, as Python
truthiness does), the connection's event rows, and `last_synced_at`.
Token decryption/refresh precedes the fetch, touches only the token
columns, and is folded into the `fetch` capability. -/
structure GoogleConnState where
  syncToken : Option String
  events : List EventRow
  lastSyncedAt : Option Int
deriving DecidableEq, Repr

/-- `sync_google_events` from sync.py.  `fetch cursor` stands for
`GoogleCalendarClient.get_events(..., sync_token=cursor)` over the fixed
30-days-back / 365-days-forward window; its `Except.error` carries
`str(e)` of the raised `ValueError`.  On a fetch error whose message
contains `"sync required"` (lower-cased) the code retries exactly once
with no cursor; any other error propagates and — no commit having
happened — leaves the persisted state unchanged. -/
def syncGoogleEvents
    (fetch : Option String → Except String (List GoogleEvent × Option String))
    (now : Int) (forceFullSync : Bool) (conn : GoogleConnState) :
    Except String (GoogleConnState × SyncStats) :=
  let tok : Option String :=
    match conn.syncToken with
    | none => none
    | some t => if forceFullSync || t = "" then none else some t
  let fetched : Except String (List GoogleEvent × Option String) :=
    match fetch tok with
    | .ok r => .ok r
    | .error e =>
        if strHasSub (strToLower e) "sync required" then fetch none
        else .error e
  match fetched with
  | .error e => .error e
  | .ok (evs, nextTok) =>
      let (db, stats) := processGoogleBatch conn.events evs now
      let tok' : Option String :=
        match nextTok with
        | some t => if t = "" then conn.syncToken else some t
        | none => conn.syncToken
      .ok ({ syncToken := tok', events := db, lastSyncedAt := some now }, stats)

/-! ### Microsoft sync (backend/cal/services/sync.py) -/

/-- The fields of a `MicrosoftEvent` (backend/cal/oauth/microsoft.py) read
by `_upsert_microsoft_event`.  `recurrenceRrule` is the result of
`convert_recurrence_to_rrule(ms_event.recurrence)` (a pure translation of
the provider's recurrence payload); `recurrencePresent` is the truthiness
of the raw payload, which feeds `is_recurring`. -/
structure MicrosoftEvent where
  id : String
  subject : String
  bodyPreview : Option String
  location : Option String
  start : Int
  endTime : Int
  isAllDay : Bool
  startTimezone : String
  webLink : Option String
  attendeesPayload : Option String
  recurrencePresent : Bool
  recurrenceRrule : Option String
  seriesMasterId : Option String
  importance : Option String
  teamsEnabled : Bool
  teamsMeetingUrl : Option String
  teamsConferenceId : Option String
  isCancelled : Bool
  isRemoved : Bool
deriving DecidableEq, Repr

/-- The `event_data` dictionary of `_upsert_microsoft_event` applied to a
row; every key exists on the model, so the `hasattr` guards always pass. -/
def microsoftEventData (m : MicrosoftEvent) (now : Int) (r : EventRow) : EventRow :=
  { r with
    title := m.subject
    description := m.bodyPreview
    location := m.location
    startTime := m.start
    endTime := m.endTime
    isAllDay := m.isAllDay
    timezone := m.startTimezone
    status := .confirmed
    syncStatus := .synced
    htmlLink := m.webLink
    attendeesPayload := m.attendeesPayload
    isRecurring := m.recurrencePresent || m.seriesMasterId.isSome
    recurrenceRule := m.recurrenceRrule
    seriesMasterId := m.seriesMasterId
    importance := m.importance
    teamsEnabled := m.teamsEnabled
    teamsMeetingUrl := m.teamsMeetingUrl
    teamsConferenceId := m.teamsConferenceId
    lastSyncedAt := some now
    deletedAt := none }

/-- A fresh row created by `_upsert_microsoft_event`. -/
def microsoftNewRow (m : MicrosoftEvent) (now : Int) : EventRow :=
  microsoftEventData m now
    { providerEventId := m.id
      title := ""
      description := none
      location := none
      startTime := 0
      endTime := 0
      isAllDay := false
      timezone := "UTC"
      status := .confirmed
      syncStatus := .synced
      htmlLink := none
      attendeesPayload := none
      remindersPayload := none
      isRecurring := false
      recurrenceRule := none
      seriesMasterId := none
      importance := none
      teamsEnabled := false
      teamsMeetingUrl := none
      teamsConferenceId := none
      lastSyncedAt := none
      updatedAt := none
      deletedAt := none }

/-- `_upsert_microsoft_event` from sync.py: an `@removed` delta entry
soft-deletes the matching row; a cancelled event additionally sets the
event status to cancelled before soft-deleting; otherwise the row is
updated or inserted. -/
def upsertMicrosoftEvent (db : List EventRow) (m : MicrosoftEvent) (now : Int) :
    List EventRow × UpsertResult :=
  match findEvent db m.id with
  | some _ =>
      if m.isRemoved then
        (updateFirst db m.id (softDelete now), .deleted)
      else if m.isCancelled then
        (updateFirst db m.id
          (fun r => softDelete now { r with status := .cancelled }),
         .deleted)
      else
        (updateFirst db m.id
          (fun r => { microsoftEventData m now r with updatedAt := some now }),
         .updated)
  | none =>
      if m.isRemoved || m.isCancelled then (db, .deleted)
      else (db ++ [microsoftNewRow m now], .new)

/-- The `for ms_event in events` loop of `sync_microsoft_events`. -/
def processMicrosoftBatchAux (db : List EventRow) (stats : SyncStats)
    (evs : List MicrosoftEvent) (now : Int) : List EventRow × SyncStats :=
  match evs with
  | [] => (db, stats)
  | m :: rest =>
      let (db', res) := upsertMicrosoftEvent db m now
      processMicrosoftBatchAux db' (stats.record res) rest now

def processMicrosoftBatch (db : List EventRow) (evs : List MicrosoftEvent) (now : Int) :
    List EventRow × SyncStats :=
  processMicrosoftBatchAux db SyncStats.zero evs now

/-- `sync_microsoft_events` from sync.py.  `fetch cursor` stands for
`MicrosoftCalendarClient.get_delta_events(..., delta_token=cursor)`; the
delta token is dropped only under `force_full_sync` (no truthiness check
at this call site).  A fetch error whose message contains
`"INVALID_DELTA_TOKEN"` triggers exactly one retry with no cursor. -/
def syncMicrosoftEvents
    (fetch : Option String → Except String (List MicrosoftEvent × Option String))
    (now : Int) (forceFullSync : Bool) (conn : GoogleConnState) :
    Except String (GoogleConnState × SyncStats) :=
  let tok : Option String := if forceFullSync then none else conn.syncToken
  let fetched : Except String (List MicrosoftEvent × Option String) :=
    match fetch tok with
    | .ok r => .ok r
    | .error e =>
        if strHasSub e "INVALID_DELTA_TOKEN" then fetch none
        else .error e
  match fetched with
  | .error e => .error e
  | .ok (evs, nextTok) =>
      let (db, stats) := processMicrosoftBatch conn.events evs now
      let tok' : Option String :=
        match nextTok with
        | some t => if t = "" then conn.syncToken else some t
        | none => conn.syncToken
      .ok ({ syncToken := tok', events := db, lastSyncedAt := some now }, stats)

/-! ### ICS feed sync (backend/cal/services/ics.py) -/

/-- One `VEVENT` component as `sync_ics_events` / `_upsert_ics_event` read
it.  `uid` is `str(component.get("uid", uuid4()))` — a component lacking a
UID is represented by the fresh random identifier the source generates
for it.  `dtstart`/`dtend` are the start/end values after the
date-to-midnight conversion of `_upsert_ics_event` (`none` models a
component without the field); `dtstartIsDate` is
`not hasattr(start_dt, "hour")`, i.e. the component carried a bare date.
`statusRaw` is `str(component.get("status", "confirmed")).upper()`;
`rrule` is the serialized rule when an `RRULE` property is present. -/
structure IcsVEvent where
  uid : String
  summary : String
  description : Option String
  location : Option String
  dtstart : Option Int
  dtstartIsDate : Bool
  dtend : Option Int
  statusRaw : String
  rrule : Option String
deriving DecidableEq, Repr

/-- `status_map.get(status_str, EventStatus.CONFIRMED)` of
`_upsert_ics_event`. -/
def icsStatusMap (s : String) : EventStatus :=
  if s = "CONFIRMED" then .confirmed
  else if s = "TENTATIVE" then .tentative
  else if s = "CANCELLED" then .cancelled
  else .confirmed

/-- The `event_data` dictionary of `_upsert_ics_event` applied to a row,
for a component whose `dtstart` is `some st` (otherwise the upsert
returns "skipped" before building it).  A missing `DTEND` defaults to
one hour (`timedelta(hours=1)`, 60 model minutes) after the start. -/
def icsEventData (v : IcsVEvent) (st : Int) (now : Int) (r : EventRow) : EventRow :=
  { r with
    title := v.summary.take 500
    description := v.description.map (fun d => d.take 2000)
    location := v.location.map (fun l => l.take 500)
    startTime := st
    endTime := v.dtend.getD (st + 60)
    isAllDay := v.dtstartIsDate
    timezone := "UTC"
    status := icsStatusMap v.statusRaw
    syncStatus := .synced
    isRecurring := v.rrule.isSome
    recurrenceRule := v.rrule.map (fun s => "RRULE:" ++ s)
    lastSyncedAt := some now
    deletedAt := none }

/-- A fresh row created by `_upsert_ics_event`. -/
def icsNewRow (v : IcsVEvent) (st : Int) (eventId : String) (now : Int) : EventRow :=
  icsEventData v st now
    { providerEventId := eventId
      title := ""
      description := none
      location := none
      startTime := 0
      endTime := 0
      isAllDay := false
      timezone := "UTC"
      status := .confirmed
      syncStatus := .synced
      htmlLink := none
      attendeesPayload := none
      remindersPayload := none
      isRecurring := false
      recurrenceRule := none
      seriesMasterId := none
      importance := none
      teamsEnabled := false
      teamsMeetingUrl := none
      teamsConferenceId := none
      lastSyncedAt := none
      updatedAt := none
      deletedAt := none }

/-- `_upsert_ics_event` from ics.py.  `existing` is the row the caller
looked up in the `existing_events` dictionary (captured before the loop);
the update is applied to that row inside the session, i.e. to the first
row of `db` carrying the identifier.  A component without `DTSTART` is
skipped without touching any row. -/
def upsertIcsEvent (db : List EventRow) (v : IcsVEvent) (eventId : String)
    (existing : Option EventRow) (now : Int) : List EventRow × UpsertResult :=
  match v.dtstart with
  | none => (db, .skipped)
  | some st =>
      match existing with
      | some _ =>
          (updateFirst db eventId
            (fun r => { icsEventData v st now r with updatedAt := some now }),
           .updated)
      | none => (db ++ [icsNewRow v st eventId now], .new)

/-- The `for component in cal.walk()` loop of `sync_ics_events`: the
component's identifier is added to `seen_event_ids` before the upsert,
and the upsert's `existing` lookup goes through the `existing_events`
dictionary captured from the pre-loop database `pre`. -/
def processIcsBatchAux (pre : List EventRow) (db : List EventRow)
    (seen : List String) (stats : SyncStats) (comps : List IcsVEvent)
    (now : Int) : List EventRow × List String × SyncStats :=
  match comps with
  | [] => (db, seen, stats)
  | v :: rest =>
      let seen' := seen ++ [v.uid]
      let (db', res) := upsertIcsEvent db v v.uid (findEvent pre v.uid) now
      processIcsBatchAux pre db' seen' (stats.record res) rest now

def processIcsBatch (pre : List EventRow) (comps : List IcsVEvent) (now : Int) :
    List EventRow × List String × SyncStats :=
  processIcsBatchAux pre pre [] SyncStats.zero comps now

/-- The "mark missing events as deleted" loop of `sync_ics_events`: it
walks the keys of the `existing_events` dictionary (the identifiers of
the pre-loop rows, first occurrence kept) and soft-deletes the row of
each identifier that is not in `seen_event_ids` and whose `deleted_at`
is still null, counting each deletion. -/
def pruneUnseenAux (db : List EventRow) (delCount : Nat) (preIds : List String)
    (seen : List String) (now : Int) : List EventRow × Nat :=
  match preIds with
  | [] => (db, delCount)
  | pid :: rest =>
      if seen.contains pid then pruneUnseenAux db delCount rest seen now
      else
        match findEvent db pid with
        | some r =>
            if r.deletedAt = none then
              pruneUnseenAux (updateFirst db pid (softDelete now)) (delCount + 1)
                rest seen now
            else pruneUnseenAux db delCount rest seen now
        | none => pruneUnseenAux db delCount rest seen now

def pruneUnseen (db : List EventRow) (preIds : List String) (seen : List String)
    (now : Int) : List EventRow × Nat :=
  pruneUnseenAux db 0 preIds seen now

/-- What `sync_ics_events` reads from the HTTP response: the status code,
the `ETag` / `Last-Modified` headers, and the outcome of
`Calendar.from_ical(response.text)` restricted to its `VEVENT`
components (`Except.error` models a parse exception with its message). -/
structure IcsHttpResponse where
  status : Nat
  etag : Option String
  lastModified : Option String
  parsed : Except String (List IcsVEvent)
deriving Repr

/-- The connection state `sync_ics_events` reads and writes. -/
structure IcsConnState where
  icsUrlPresent : Bool
  icsEtag : Option String
  icsLastModified : Option String
  lastSyncedAt : Option Int
  events : List EventRow
deriving Repr

/-- `sync_ics_events` from ics.py.  An `Except.error` result models a
raised exception: the `except` handler calls `db.rollback()` before
re-raising, so every uncommitted session write — in particular the
`ics_etag` / `ics_last_modified` assignments made before the parse — is
reverted and the persisted state stays at the input `s`.  A 304 response
only refreshes `last_synced_at`.  On a parsed 200 response the events
are upserted, previously seen identifiers absent from the feed are
soft-deleted, the cache validators are replaced by the response headers,
and everything is committed. -/
def syncIcsEvents (resp : IcsHttpResponse) (now : Int) (s : IcsConnState) :
    Except String (IcsConnState × SyncStats) :=
  if !s.icsUrlPresent then .error "No ICS URL configured"
  else if resp.status = 304 then
    .ok ({ s with lastSyncedAt := some now }, SyncStats.zero)
  else if resp.status ≠ 200 then
    .error ("Failed to fetch ICS: HTTP " ++ toString resp.status)
  else
    match resp.parsed with
    | .error e => .error e
    | .ok comps =>
        let (db, seen, stats) := processIcsBatch s.events comps now
        let (db', delCount) :=
          pruneUnseen db ((s.events.map (fun r => r.providerEventId)).dedup) seen now
        .ok ({ s with
                icsEtag := resp.etag
                icsLastModified := resp.lastModified
                lastSyncedAt := some now
                events := db' },
             { stats with deletedEvents := stats.deletedEvents + delCount })

/-! ### Free/busy aggregation (backend/cal/services/free_time_calculator.py)

Datetimes here are `Nat` minutes; a day is 1440 minutes and `dt.hour` is
`dt % 1440 / 60`.  `dt.replace(hour=h, minute=0, second=0, microsecond=0)`
is `dt / 1440 * 1440 + h * 60`. -/

/-- Constructor arguments of `FreeTimeCalculator` (`excluded_hours`,
`min_slot_minutes`). -/
structure FreeTimeCalculator where
  excludedStart : Nat
  excludedEnd : Nat
  minSlotMinutes : Nat
deriving DecidableEq, Repr

/-- One entry of the `busy_blocks` argument (only the keys the calculator
reads). -/
structure BusyBlock where
  startTime : Nat
  endTime : Nat
deriving DecidableEq, Repr

/-- One free-slot dictionary produced by `_extract_valid_slots`. -/
structure FreeSlot where
  startTime : Nat
  endTime : Nat
  durationMinutes : Nat
deriving DecidableEq, Repr

/-- `FreeTimeCalculator._is_excluded_hour`. -/
def FreeTimeCalculator.isExcludedHour (c : FreeTimeCalculator) (dt : Nat) : Bool :=
  let hour := dt % 1440 / 60
  if c.excludedStart < c.excludedEnd then
    decide (c.excludedStart ≤ hour ∧ hour < c.excludedEnd)
  else
    decide (c.excludedStart ≤ hour ∨ hour < c.excludedEnd)

/-- `FreeTimeCalculator._next_valid_hour`: the end of the excluded hours
on the current day, pushed to the next day when already passed. -/
def FreeTimeCalculator.nextValidHour (c : FreeTimeCalculator) (dt : Nat) : Nat :=
  let nd := dt / 1440 * 1440 + c.excludedEnd * 60
  if nd ≤ dt then nd + 1440 else nd

/-- `_next_valid_hour` strictly advances time (the loop in
`_extract_valid_slots` terminates because of this). -/
theorem FreeTimeCalculator.lt_nextValidHour (c : FreeTimeCalculator) (dt : Nat) :
    dt < c.nextValidHour dt := by
  unfold FreeTimeCalculator.nextValidHour
  have hdm := Nat.div_add_mod dt 1440
  have hml : dt % 1440 < 1440 := Nat.mod_lt dt (by norm_num)
  by_cases h : dt / 1440 * 1440 + c.excludedEnd * 60 ≤ dt <;> simp [h] <;> omega

/-- `FreeTimeCalculator._end_of_valid_period`: midnight of the next day
when the excluded range starts at midnight, otherwise the start of the
excluded hours, pushed to the next day when already passed. -/
def FreeTimeCalculator.endOfValidPeriod (c : FreeTimeCalculator) (dt : Nat) : Nat :=
  if c.excludedStart = 0 then (dt + 1440) / 1440 * 1440
  else
    let e := dt / 1440 * 1440 + c.excludedStart * 60
    if e ≤ dt then e + 1440 else e

/-- `FreeTimeCalculator._extract_valid_slots`: the `while current < end`
loop, recursing on the strictly increasing `current` (named `start` here
as in the Python signature).  Durations are exact since the model's time
unit is the minute. -/
def FreeTimeCalculator.extractValidSlots (c : FreeTimeCalculator)
    (start endT : Nat) : List FreeSlot :=
  if h : start < endT then
    if c.isExcludedHour start then
      c.extractValidSlots (c.nextValidHour start) endT
    else
      let dayEnd := c.endOfValidPeriod start
      let slotEnd := min endT dayEnd
      if h2 : slotEnd ≤ start then
        c.extractValidSlots (c.nextValidHour start) endT
      else
        let duration := slotEnd - start
        let rest := c.extractValidSlots slotEnd endT
        if c.minSlotMinutes ≤ duration then
          ⟨start, slotEnd, duration⟩ :: rest
        else rest
  else []
termination_by endT - start
decreasing_by
  · exact Nat.sub_lt_sub_left h (c.lt_nextValidHour start)
  · exact Nat.sub_lt_sub_left h (c.lt_nextValidHour start)
  · exact Nat.sub_lt_sub_left h (Nat.lt_of_not_le h2)

/-- Stable insertion used to model `sorted(busy_blocks, key=lambda x:
x["start_time"])`: each block goes after every already-placed block with
a start time less than or equal to its own. -/
def insertByStart (b : BusyBlock) : List BusyBlock → List BusyBlock
  | [] => [b]
  | x :: xs =>
      if x.startTime ≤ b.startTime then x :: insertByStart b xs
      else b :: x :: xs

def sortByStart (blocks : List BusyBlock) : List BusyBlock :=
  blocks.foldl (fun acc b => insertByStart b acc) []

/-- `FreeTimeCalculator._merge_busy_blocks`: sort by start time, then fold
each block into the last merged block when it overlaps or touches it
(`current["start_time"] <= last["end_time"]`). -/
def FreeTimeCalculator.mergeBusyBlocks (_c : FreeTimeCalculator)
    (busyBlocks : List BusyBlock) : List BusyBlock :=
  match sortByStart busyBlocks with
  | [] => []
  | first :: rest =>
      let step := rest.foldl
        (fun (p : List BusyBlock × BusyBlock) cur =>
          let (done, last) := p
          if cur.startTime ≤ last.endTime then
            (done, { last with endTime := max last.endTime cur.endTime })
          else (done ++ [last], cur))
        ([], first)
      step.1 ++ [step.2]

/-- `FreeTimeCalculator._generate_free_slots_for_range`. -/
def FreeTimeCalculator.generateFreeSlotsForRange (c : FreeTimeCalculator)
    (start endT : Nat) : List FreeSlot :=
  c.extractValidSlots start endT

/-- `FreeTimeCalculator.find_free_slots`: merge the busy blocks, walk the
merged list collecting the gap before each block, then the residual gap
after the last block. -/
def FreeTimeCalculator.findFreeSlots (c : FreeTimeCalculator)
    (busyBlocks : List BusyBlock) (startDate endDate : Nat) : List FreeSlot :=
  if busyBlocks.isEmpty then c.generateFreeSlotsForRange startDate endDate
  else
    let merged := c.mergeBusyBlocks busyBlocks
    let walk := merged.foldl
      (fun (p : List FreeSlot × Nat) busy =>
        let (freeSlots, current) := p
        let freeSlots :=
          if current < busy.startTime then
            freeSlots ++ c.extractValidSlots current busy.startTime
          else freeSlots
        (freeSlots, max current busy.endTime))
      ([], startDate)
    if walk.2 < endDate then walk.1 ++ c.extractValidSlots walk.2 endDate
    else walk.1

/-! ### Recurrence expansion and composite instance ids
(backend/cal/utils/recurrence.py, backend/cal/router.py) -/

/-- Decimal digit characters used to render numbers in identifiers. -/
def digitCharOf (d : Nat) : Char :=
  if d = 0 then '0' else if d = 1 then '1' else if d = 2 then '2'
  else if d = 3 then '3' else if d = 4 then '4' else if d = 5 then '5'
  else if d = 6 then '6' else if d = 7 then '7' else if d = 8 then '8'
  else '9'

/-- Decimal rendering of a natural number, most significant digit first. -/
def natDigits (n : Nat) : List Char :=
  if h : n < 10 then [digitCharOf n]
  else natDigits (n / 10) ++ [digitCharOf (n % 10)]
decreasing_by
  exact Nat.div_lt_self (by omega) (by norm_num)

/-- Zero-pad on the left to a fixed width, as `%02d`-style formatting of
`datetime.isoformat` does. -/
def padDigits (w : Nat) (s : List Char) : List Char :=
  List.replicate (w - s.length) '0' ++ s

/-- The fields of a (timezone-naive) Python `datetime` that appear in its
`isoformat()` output; occurrence starts generated by `dateutil` carry no
microseconds, which `isoformat` then omits. -/
structure PyDatetime where
  year : Nat
  month : Nat
  day : Nat
  hour : Nat
  minute : Nat
  second : Nat
deriving DecidableEq, Repr

/-- `datetime.isoformat()`: `YYYY-MM-DDTHH:MM:SS`. -/
def PyDatetime.isoformat (d : PyDatetime) : String :=
  String.mk (padDigits 4 (natDigits d.year) ++ ['-'] ++
             padDigits 2 (natDigits d.month) ++ ['-'] ++
             padDigits 2 (natDigits d.day) ++ ['T'] ++
             padDigits 2 (natDigits d.hour) ++ [':'] ++
             padDigits 2 (natDigits d.minute) ++ [':'] ++
             padDigits 2 (natDigits d.second))

/-- Lower-case hexadecimal digit characters of `str(uuid.UUID(...))`. -/
def hexDigitCharOf (d : Nat) : Char :=
  if d < 10 then digitCharOf d
  else if d = 10 then 'a' else if d = 11 then 'b' else if d = 12 then 'c'
  else if d = 13 then 'd' else if d = 14 then 'e' else 'f'

/-- Hexadecimal rendering of a natural number. -/
def hexDigits (n : Nat) : List Char :=
  if h : n < 16 then [hexDigitCharOf n]
  else hexDigits (n / 16) ++ [hexDigitCharOf (n % 16)]
decreasing_by
  exact Nat.div_lt_self (by omega) (by norm_num)

/-- A UUID as its five hyphen-separated hexadecimal groups. -/
structure PyUuid where
  g1 : Nat
  g2 : Nat
  g3 : Nat
  g4 : Nat
  g5 : Nat
deriving DecidableEq, Repr

/-- `str(uuid)`: `xxxxxxxx-xxxx-xxxx-xxxx-xxxxxxxxxxxx`. -/
def PyUuid.render (u : PyUuid) : String :=
  String.mk (padDigits 8 (hexDigits u.g1) ++ ['-'] ++
             padDigits 4 (hexDigits u.g2) ++ ['-'] ++
             padDigits 4 (hexDigits u.g3) ++ ['-'] ++
             padDigits 4 (hexDigits u.g4) ++ ['-'] ++
             padDigits 12 (hexDigits u.g5))

/-- The composite instance identifier built at recurrence.py line 98:
`f"{event.id}_{occurrence_start.isoformat()}"`. -/
def mkInstanceId (seriesId isoStart : String) : String :=
  seriesId ++ "_" ++ isoStart

/-- Split a character list at its LAST occurrence of `sep`, or `none`
when `sep` does not occur — the behaviour of `str.rsplit(sep, 1)` when a
separator is present, guarded by the `"_" in event_id` check. -/
def rsplitLast (sep : Char) : List Char → Option (List Char × List Char)
  | [] => none
  | c :: rest =>
      match rsplitLast sep rest with
      | some (a, b) => some (c :: a, b)
      | none => if c = sep then some ([], rest) else none

/-- The composite-id parsing of `get_event_by_id` (router.py lines
426-435): when the id contains an underscore, `event_id.rsplit("_", 1)`
yields the series id and the instance date. -/
def parseCompositeEventId (s : String) : Option (String × String) :=
  match rsplitLast '_' s.data with
  | some (a, b) => some (String.mk a, String.mk b)
  | none => none

/-- The columns of a recurring `CalendarEvent` row that
`expand_recurring_event` reads.  `idRendered` is `str(event.id)` /
`f"{event.id}"` (the row's UUID primary key as text);
`exceptionDateDays` is the set of dates recovered from the stored
`exception_dates` payload, as day numbers (a date is the floor of a
timestamp divided by 1440). -/
structure RecurringEventModel where
  idRendered : String
  title : String
  isRecurring : Bool
  recurrenceRule : Option String
  startTime : Int
  endTime : Int
  exceptionDateDays : List Int
deriving DecidableEq, Repr

/-- One expanded instance dictionary (the keys the claims are about). -/
structure EventInstance where
  id : String
  originalEventId : String
  title : String
  startTime : Int
  endTime : Int
  isRecurring : Bool
deriving DecidableEq, Repr

/-- `occurrence_start.date()` in the minutes-per-day model. -/
def dateOfTime (t : Int) : Int := Int.fdiv t 1440

/-- The `for occurrence_start in occurrences` body of
`expand_recurring_event`: drop exception dates, drop occurrences outside
the window, build the instance dictionaries. -/
def buildInstances (isoOfTime : Int → String) (ev : RecurringEventModel)
    (rangeStart rangeEnd duration : Int) : List Int → List EventInstance
  | [] => []
  | occ :: rest =>
      let tail := buildInstances isoOfTime ev rangeStart rangeEnd duration rest
      if (ev.exceptionDateDays).contains (dateOfTime occ) then tail
      else
        let occEnd := occ + duration
        if occEnd < rangeStart || occ > rangeEnd then tail
        else
          { id := mkInstanceId ev.idRendered (isoOfTime occ)
            originalEventId := ev.idRendered
            title := ev.title
            startTime := occ
            endTime := occEnd
            isRecurring := true } :: tail

/-- `expand_recurring_event` from recurrence.py.  The `dateutil` library
is passed in explicitly: `parseRrule rule dtstart` is
`rrulestr(rule, dtstart=...)` with `none` modelling a raised parse
exception (the `except … return []` branch at lines 48-52), and
`between r a b` is `rule.between(a, b, inc=True)`.  `isoOfTime` renders
an occurrence start as its `isoformat()` string.  The function is total:
the enclosing `try` turns any failure into an empty list. -/
def expandRecurringEvent {R : Type}
    (parseRrule : String → Int → Option R)
    (between : R → Int → Int → List Int)
    (isoOfTime : Int → String)
    (ev : RecurringEventModel)
    (rangeStart rangeEnd : Int) (maxInstances : Nat) : List EventInstance :=
  if !ev.isRecurring || ev.recurrenceRule.getD "" = "" then []
  else
    let rule := ev.recurrenceRule.getD ""
    let duration := ev.endTime - ev.startTime
    match parseRrule rule ev.startTime with
    | none => []
    | some r =>
        let searchStart := rangeStart - duration
        let occurrences := (between r searchStart rangeEnd).take maxInstances
        buildInstances isoOfTime ev rangeStart rangeEnd duration occurrences

/-! ### Webhook notification processing (backend/cal/services/webhook.py) -/

/-- The columns of a `WebhookSubscription` row that
`_process_microsoft_notification` reads or writes. -/
structure WebhookSubscriptionRow where
  subscriptionId : String
  isActive : Bool
  clientState : Option String
  lastNotificationAt : Option Int
  connectionId : Nat
deriving DecidableEq, Repr

/-- The fields of one Microsoft Graph notification read by
`_process_microsoft_notification` (each a `.get(...)`, hence optional). -/
structure MsNotification where
  subscriptionId : Option String
  clientState : Option String
  changeType : Option String
  resource : Option String
deriving DecidableEq, Repr

/-- What one notification causes: either it is dropped with an early
`return`, or it marks the subscription notified and calls
`sync_microsoft_events(connection, db, force_full_sync=False)` for the
subscription's connection. -/
inductive NotificationAction where
  | drop
  | triggerSync (connectionId : Nat)
deriving DecidableEq, Repr

/-- Stamp `last_notification_at` on the first active subscription row
carrying the id (the object mutated through the session). -/
def markNotified (subs : List WebhookSubscriptionRow) (sid : String) (now : Int) :
    List WebhookSubscriptionRow :=
  match subs with
  | [] => []
  | s :: rest =>
      if s.subscriptionId = sid && s.isActive then
        { s with lastNotificationAt := some now } :: rest
      else s :: markNotified rest sid now

/-- `_process_microsoft_notification` from webhook.py: drop when the
subscription id is missing/empty or no active subscription matches; drop
when a non-empty stored client state differs from the notification's
client state (`subscription.client_state and client_state !=
subscription.client_state`, Python truthiness making an empty stored
secret skip the check); otherwise stamp the subscription and trigger an
incremental sync of the connection. -/
def processMicrosoftNotification (subs : List WebhookSubscriptionRow)
    (n : MsNotification) (now : Int) :
    List WebhookSubscriptionRow × NotificationAction :=
  match n.subscriptionId with
  | none => (subs, .drop)
  | some sid =>
      if sid = "" then (subs, .drop)
      else
        match subs.find? (fun s => s.subscriptionId = sid && s.isActive) with
        | none => (subs, .drop)
        | some sub =>
            let mismatch :=
              match sub.clientState with
              | some cs => cs ≠ "" && n.clientState ≠ some cs
              | none => false
            if mismatch then (subs, .drop)
            else (markNotified subs sid now, .triggerSync sub.connectionId)

/-! ### OAuth state lifecycle (backend/cal/oauth/router.py) -/

/-- `CalendarProvider` enum values used by the OAuth state table. -/
inductive CalendarProviderTag where
  | google
  | microsoft
  | ics
deriving DecidableEq, Repr

/-- The columns of an `OAuthState` row that the OAuth router reads or
writes. -/
structure OAuthStateRow where
  userId : Nat
  provider : CalendarProviderTag
  state : String
  consumed : Bool
  expiresAt : Int
deriving DecidableEq, Repr

/-- `timedelta(minutes=15)` in the minutes time model. -/
def oauthStateLifetime : Int := 15

/-- The state-storing step of `initiate_google_oauth` /
`initiate_microsoft_oauth`: insert a fresh unconsumed row expiring 15
minutes from now. -/
def initiateOAuth (db : List OAuthStateRow) (userId : Nat)
    (provider : CalendarProviderTag) (state : String) (now : Int) :
    List OAuthStateRow :=
  db ++ [{ userId := userId, provider := provider, state := state,
           consumed := false, expiresAt := now + oauthStateLifetime }]

/-- The distinguishable outcomes of `handle_google_callback` /
`handle_microsoft_callback`: the redirect query produced for the
frontend. -/
inductive OAuthCallbackOutcome where
  | providerError (e : String)
  | missingParams
  | invalidState
  | success (userId : Nat)
  | authFailed
deriving DecidableEq, Repr

/-- The filter of the state-validation query:
`state == s AND provider == p AND consumed == False AND expires_at >
utcnow()`. -/
def oauthStateValid (provider : CalendarProviderTag) (s : String) (now : Int)
    (r : OAuthStateRow) : Bool :=
  r.state = s && r.provider = provider && !r.consumed && now < r.expiresAt

/-- `oauth_state.consumed = True` applied to the row `.first()` returned:
mark the first row passing the validation filter. -/
def consumeFirst (db : List OAuthStateRow) (provider : CalendarProviderTag)
    (s : String) (now : Int) : List OAuthStateRow :=
  match db with
  | [] => []
  | r :: rest =>
      if oauthStateValid provider s now r then { r with consumed := true } :: rest
      else r :: consumeFirst rest provider s now

/-- `handle_google_callback` / `handle_microsoft_callback` from
oauth/router.py, returning the committed state table and the redirect
outcome.  `exchange code` stands for everything after the state is
consumed — `get_tokens(code)`, `list_calendars`, session creation — with
`Except.error` modelling a raised exception (caught and turned into the
`auth_failed` redirect; the consumption commit at lines 171-172 has
already happened by then).  A provider-reported error (`error` query
parameter, non-empty) short-circuits before any state lookup. -/
def handleOAuthCallback (db : List OAuthStateRow) (now : Int)
    (provider : CalendarProviderTag)
    (code state error : Option String)
    (exchange : String → Except String Unit) :
    List OAuthStateRow × OAuthCallbackOutcome :=
  let afterErrorCheck : List OAuthStateRow × OAuthCallbackOutcome :=
    match code, state with
    | some c, some s =>
        if c = "" || s = "" then (db, .missingParams)
        else
          match db.find? (oauthStateValid provider s now) with
          | none => (db, .invalidState)
          | some row =>
              let db' := consumeFirst db provider s now
              match exchange c with
              | .ok _ => (db', .success row.userId)
              | .error _ => (db', .authFailed)
    | _, _ => (db, .missingParams)
  match error with
  | some e => if e = "" then afterErrorCheck else (db, .providerError e)
  | none => afterErrorCheck

/-! ### Concrete fixtures used by counterexamples and witnesses -/

/-- A live synced row, as a full sync would have created it. -/
def sampleRow : EventRow :=
  { providerEventId := "evt-1"
    title := "Standup"
    description := none
    location := none
    startTime := 600
    endTime := 660
    isAllDay := false
    timezone := "UTC"
    status := .confirmed
    syncStatus := .synced
    htmlLink := none
    attendeesPayload := none
    remindersPayload := none
    isRecurring := false
    recurrenceRule := none
    seriesMasterId := none
    importance := none
    teamsEnabled := false
    teamsMeetingUrl := none
    teamsConferenceId := none
    lastSyncedAt := some 0
    updatedAt := none
    deletedAt := none }

/-- The same row after a soft deletion at time 5. -/
def sampleRowDeleted : EventRow :=
  { sampleRow with deletedAt := some 5, syncStatus := .deleted }

/-! ### Helper lemmas about the row-store primitives -/

theorem googleEventData_providerEventId (g : GoogleEvent) (now : Int) (r : EventRow) :
    (googleEventData g now r).providerEventId = r.providerEventId := rfl

theorem microsoftEventData_providerEventId (m : MicrosoftEvent) (now : Int) (r : EventRow) :
    (microsoftEventData m now r).providerEventId = r.providerEventId := rfl

theorem icsEventData_providerEventId (v : IcsVEvent) (st now : Int) (r : EventRow) :
    (icsEventData v st now r).providerEventId = r.providerEventId := by
  simp [icsEventData]

theorem softDelete_providerEventId (now : Int) (r : EventRow) :
    (softDelete now r).providerEventId = r.providerEventId := rfl

/-- Updating the first row with one identifier does not disturb the rows
carrying a different identifier, as long as the update function keeps the
identifier (every update in sync.py / ics.py does). -/
theorem filter_updateFirst (db : List EventRow) (pid qid : String)
    (f : EventRow → EventRow)
    (hf : ∀ r, (f r).providerEventId = r.providerEventId)
    (h : pid ≠ qid) :
    (updateFirst db pid f).filter (fun r => r.providerEventId = qid) =
      db.filter (fun r => r.providerEventId = qid) := by
  induction db with
  | nil => rfl
  | cons r rest ih =>
      by_cases hr : r.providerEventId = pid
      · have h1 : (f r).providerEventId ≠ qid := by rw [hf r, hr]; exact h
        have h2 : r.providerEventId ≠ qid := by rw [hr]; exact h
        simp [updateFirst, hr, List.filter_cons, h1, h2, h]
      · by_cases hq : r.providerEventId = qid <;>
          simp [updateFirst, hr, List.filter_cons, hq, ih, Ne.symm h]

theorem findEvent_updateFirst_ne (db : List EventRow) (pid qid : String)
    (f : EventRow → EventRow)
    (hf : ∀ r, (f r).providerEventId = r.providerEventId)
    (h : pid ≠ qid) :
    findEvent (updateFirst db pid f) qid = findEvent db qid := by
  induction db with
  | nil => rfl
  | cons r rest ih =>
      by_cases hr : r.providerEventId = pid
      · have h1 : (f r).providerEventId ≠ qid := by rw [hf r, hr]; exact h
        have h2 : r.providerEventId ≠ qid := by rw [hr]; exact h
        simp [updateFirst, findEvent, hr, List.find?_cons, h1, h2, h]
      · by_cases hq : r.providerEventId = qid <;>
          simp_all [updateFirst, findEvent, List.find?_cons, Ne.symm h]

theorem findEvent_updateFirst_self (db : List EventRow) (pid : String)
    (f : EventRow → EventRow)
    (hf : ∀ r, (f r).providerEventId = r.providerEventId) :
    findEvent (updateFirst db pid f) pid = (findEvent db pid).map f := by
  induction db with
  | nil => rfl
  | cons r rest ih =>
      by_cases hr : r.providerEventId = pid
      · have h1 : (f r).providerEventId = pid := by rw [hf r]; exact hr
        simp [updateFirst, findEvent, hr, List.find?_cons, h1]
      · simp_all [updateFirst, findEvent, List.find?_cons]

theorem findEvent_append_ne (db : List EventRow) (x : EventRow) (qid : String)
    (h : x.providerEventId ≠ qid) :
    findEvent (db ++ [x]) qid = findEvent db qid := by
  induction db with
  | nil => simp [findEvent, List.find?_cons, h]
  | cons r rest ih =>
      by_cases hq : r.providerEventId = qid <;>
        simp_all [findEvent, List.find?_cons]

theorem filter_append_ne (db : List EventRow) (x : EventRow) (qid : String)
    (h : x.providerEventId ≠ qid) :
    (db ++ [x]).filter (fun r => r.providerEventId = qid) =
      db.filter (fun r => r.providerEventId = qid) := by
  simp [List.filter_append, List.filter_cons, h]

/-- An upsert for one Google event leaves every row carrying a different
provider event id exactly as it was. -/
theorem upsertGoogleEvent_filter (db : List EventRow) (g : GoogleEvent)
    (now : Int) (qid : String) (h : g.id ≠ qid) :
    (upsertGoogleEvent db g now).1.filter (fun r => r.providerEventId = qid) =
      db.filter (fun r => r.providerEventId = qid) := by
  unfold upsertGoogleEvent
  have hnew : (googleNewRow g now).providerEventId = g.id := rfl
  cases hfind : findEvent db g.id with
  | some r0 =>
      by_cases hc : g.status = "cancelled"
      · simp only [hc, if_true, eq_self_iff_true]
        exact filter_updateFirst db g.id qid _ (fun r => rfl) h
      · simp only [hc, if_false]
        exact filter_updateFirst db g.id qid _ (fun r => rfl) h
  | none =>
      by_cases hc : g.status = "cancelled"
      · simp [hc]
      · simp only [hc, if_false]
        exact filter_append_ne db _ qid (by rw [hnew]; exact h)

theorem upsertMicrosoftEvent_filter (db : List EventRow) (m : MicrosoftEvent)
    (now : Int) (qid : String) (h : m.id ≠ qid) :
    (upsertMicrosoftEvent db m now).1.filter (fun r => r.providerEventId = qid) =
      db.filter (fun r => r.providerEventId = qid) := by
  unfold upsertMicrosoftEvent
  have hnew : (microsoftNewRow m now).providerEventId = m.id := rfl
  cases hfind : findEvent db m.id with
  | some r0 =>
      by_cases hr : m.isRemoved
      · simp only [hr, if_true]
        exact filter_updateFirst db m.id qid _ (fun r => rfl) h
      · by_cases hc : m.isCancelled
        · simp only [hr, hc, if_false, if_true, Bool.false_eq_true]
          exact filter_updateFirst db m.id qid _ (fun r => rfl) h
        · simp only [hr, hc, if_false, Bool.false_eq_true]
          exact filter_updateFirst db m.id qid _ (fun r => rfl) h
  | none =>
      by_cases hr : m.isRemoved
      · simp [hr]
      · by_cases hc : m.isCancelled
        · simp [hr, hc]
        · simp only [hr, hc, Bool.false_eq_true, or_self, if_false]
          exact filter_append_ne db _ qid (by rw [hnew]; exact h)

theorem upsertIcsEvent_findEvent (db : List EventRow) (v : IcsVEvent)
    (eventId : String) (existing : Option EventRow) (now : Int) (qid : String)
    (h : eventId ≠ qid) :
    findEvent (upsertIcsEvent db v eventId existing now).1 qid =
      findEvent db qid := by
  unfold upsertIcsEvent
  have hnew : (icsNewRow v 0 eventId now).providerEventId = eventId := by
    simp [icsNewRow, icsEventData]
  cases hst : v.dtstart with
  | none => rfl
  | some st =>
      cases existing with
      | some r0 =>
          exact findEvent_updateFirst_ne db eventId qid _
            (fun r => by simp [icsEventData]) h
      | none =>
          refine findEvent_append_ne db _ qid ?_
          simp [icsNewRow, icsEventData]
          exact h

/-- The Google batch loop leaves every row whose id no batch event carries
exactly as it was. -/
theorem processGoogleBatchAux_filter (evs : List GoogleEvent)
    (db : List EventRow) (stats : SyncStats) (now : Int) (qid : String)
    (h : ∀ g ∈ evs, g.id ≠ qid) :
    (processGoogleBatchAux db stats evs now).1.filter
        (fun r => r.providerEventId = qid) =
      db.filter (fun r => r.providerEventId = qid) := by
  induction evs generalizing db stats with
  | nil => rfl
  | cons g rest ih =>
      simp only [processGoogleBatchAux]
      rw [ih _ _ (fun g hg => h g (List.mem_cons_of_mem _ hg))]
      exact upsertGoogleEvent_filter db g now qid (h g (List.mem_cons_self g rest))

theorem processMicrosoftBatchAux_filter (evs : List MicrosoftEvent)
    (db : List EventRow) (stats : SyncStats) (now : Int) (qid : String)
    (h : ∀ m ∈ evs, m.id ≠ qid) :
    (processMicrosoftBatchAux db stats evs now).1.filter
        (fun r => r.providerEventId = qid) =
      db.filter (fun r => r.providerEventId = qid) := by
  induction evs generalizing db stats with
  | nil => rfl
  | cons m rest ih =>
      simp only [processMicrosoftBatchAux]
      rw [ih _ _ (fun m hm => h m (List.mem_cons_of_mem _ hm))]
      exact upsertMicrosoftEvent_filter db m now qid (h m (List.mem_cons_self m rest))

/-- The ICS component loop leaves the first row of any identifier no
component carries exactly where and as it was. -/
theorem processIcsBatchAux_findEvent (comps : List IcsVEvent)
    (pre db : List EventRow) (seen : List String) (stats : SyncStats)
    (now : Int) (qid : String) (h : ∀ v ∈ comps, v.uid ≠ qid) :
    findEvent (processIcsBatchAux pre db seen stats comps now).1 qid =
      findEvent db qid := by
  induction comps generalizing db seen stats with
  | nil => rfl
  | cons v rest ih =>
      simp only [processIcsBatchAux]
      rw [ih _ _ _ (fun v hv => h v (List.mem_cons_of_mem _ hv))]
      exact upsertIcsEvent_findEvent db v v.uid _ now qid (h v (List.mem_cons_self v rest))

/-- The seen-identifier set accumulated by the ICS component loop is
exactly the list of component identifiers. -/
theorem processIcsBatchAux_seen (comps : List IcsVEvent)
    (pre db : List EventRow) (seen : List String) (stats : SyncStats)
    (now : Int) :
    (processIcsBatchAux pre db seen stats comps now).2.1 =
      seen ++ comps.map (fun v => v.uid) := by
  induction comps generalizing db seen stats with
  | nil => simp [processIcsBatchAux]
  | cons v rest ih =>
      simp only [processIcsBatchAux]
      rw [ih]
      simp

/-- Under the table's unique constraint on provider event ids, looking a
member row up by its own id finds exactly that row. -/
theorem findEvent_of_mem_nodup (db : List EventRow) (r : EventRow)
    (hmem : r ∈ db)
    (hnd : (db.map (fun x => x.providerEventId)).Nodup) :
    findEvent db r.providerEventId = some r := by
  induction db with
  | nil => cases hmem
  | cons x rest ih =>
      rcases List.mem_cons.mp hmem with hx | hx
      · subst hx
        simp [findEvent, List.find?_cons]
      · have hnotin : x.providerEventId ∉ rest.map (fun y => y.providerEventId) :=
          (List.nodup_cons.mp hnd).1
        have hne : x.providerEventId ≠ r.providerEventId := by
          intro he
          exact hnotin (he ▸ List.mem_map_of_mem _ hx)
        simp [findEvent, List.find?_cons, hne]
        exact ih hx (List.nodup_cons.mp hnd).2

/-- The prune loop does not touch identifiers it does not visit. -/
theorem pruneUnseenAux_findEvent_notMem (preIds : List String)
    (db : List EventRow) (k : Nat) (seen : List String) (now : Int)
    (qid : String) (h : qid ∉ preIds) :
    findEvent (pruneUnseenAux db k preIds seen now).1 qid = findEvent db qid := by
  induction preIds generalizing db k with
  | nil => rfl
  | cons pid rest ih =>
      have hne : pid ≠ qid := fun he => h (he ▸ List.mem_cons_self pid rest)
      have hrest : qid ∉ rest := fun hm => h (List.mem_cons_of_mem _ hm)
      by_cases hc : seen.contains pid
      · simp only [pruneUnseenAux, hc, if_true]
        exact ih db k hrest
      · simp only [pruneUnseenAux, hc, Bool.false_eq_true, if_false]
        cases hf : findEvent db pid with
        | none => exact ih db k hrest
        | some r =>
            by_cases hd : r.deletedAt = none
            · simp only [hd, if_true, eq_self_iff_true]
              rw [ih _ _ hrest]
              exact findEvent_updateFirst_ne db pid qid _ (fun x => rfl) hne
            · simp only [hd, if_false]
              exact ih db k hrest

/-- Visiting an unseen live identifier, the prune loop soft-deletes its
row, and no later visit disturbs it. -/
theorem pruneUnseenAux_deletes (preIds : List String) (hnd : preIds.Nodup)
    (qid : String) (hmem : qid ∈ preIds) (seen : List String)
    (hseen : seen.contains qid = false) (db : List EventRow) (k : Nat)
    (now : Int) (r : EventRow) (hfind : findEvent db qid = some r)
    (hlive : r.deletedAt = none) :
    findEvent (pruneUnseenAux db k preIds seen now).1 qid =
      some (softDelete now r) := by
  induction preIds generalizing db k with
  | nil => cases hmem
  | cons pid rest ih =>
      rcases List.mem_cons.mp hmem with he | hrest
      · subst he
        simp only [pruneUnseenAux, hseen, Bool.false_eq_true, if_false, hfind,
          hlive, if_true, eq_self_iff_true]
        have hnotin : qid ∉ rest := (List.nodup_cons.mp hnd).1
        rw [pruneUnseenAux_findEvent_notMem rest _ _ _ _ _ hnotin]
        rw [findEvent_updateFirst_self db qid (softDelete now) (fun x => rfl), hfind]
        rfl
      · have hne : pid ≠ qid := by
          intro he
          exact (List.nodup_cons.mp hnd).1 (he ▸ hrest)
        have hnd' : rest.Nodup := (List.nodup_cons.mp hnd).2
        by_cases hc : seen.contains pid
        · simp only [pruneUnseenAux, hc, if_true]
          exact ih hnd' hrest db k hfind
        · simp only [pruneUnseenAux, hc, Bool.false_eq_true, if_false]
          cases hf : findEvent db pid with
          | none => exact ih hnd' hrest db k hfind
          | some r2 =>
              by_cases hd : r2.deletedAt = none
              · simp only [hd, if_true, eq_self_iff_true]
                refine ih hnd' hrest _ _ ?_ 
                rw [findEvent_updateFirst_ne db pid qid (softDelete now) (fun x => rfl) hne]
                exact hfind
              · simp only [hd, if_false]
                exact ih hnd' hrest db k hfind

/-! ## Claim theorems -/

/-- C1 counterexample.  The claim says a full-sync pass of
`sync_google_events` (no stored cursor) soft-deletes every existing local
row whose provider event id is not re-observed in the batch.  It does
not: with one live local row `evt-1` and a full-sync batch that returns
no events (and a fresh cursor), the pass completes and leaves the row
live — `sync_google_events` has no absence-based deletion at all (and
neither has `sync_microsoft_events`); only `sync_ics_events` prunes. -/
theorem c1_google_full_sync_does_not_prune :
    syncGoogleEvents (fun _ => .ok ([], some "fresh-token")) 10 false
        ⟨none, [sampleRow], none⟩ =
      .ok (⟨some "fresh-token", [sampleRow], some 10⟩, SyncStats.zero) ∧
    sampleRow.deletedAt = none ∧ sampleRow.syncStatus = SyncStatus.synced := by
  refine ⟨rfl, rfl, rfl⟩

/-- C1 as amended: absence-based deletion on a full-sync batch holds for
`sync_ics_events` only.  (a) An ICS pass over a parsed 200 response
soft-deletes (deleted_at set, sync status DELETED) every existing live
row whose provider event id is not among the feed's component ids.
(b) `sync_google_events` run with no stored cursor leaves every row whose
id the batch does not mention exactly as it was, and (c) so does
`sync_microsoft_events`: the OAuth providers soft-delete only events the
batch explicitly marks cancelled/removed. -/
theorem c1_amended_full_sync_deletion :
    (∀ (resp : IcsHttpResponse) (now : Int) (s : IcsConnState)
        (comps : List IcsVEvent) (r : EventRow),
      s.icsUrlPresent = true →
      resp.status = 200 →
      resp.parsed = .ok comps →
      r ∈ s.events →
      r.deletedAt = none →
      r.providerEventId ∉ comps.map (fun v => v.uid) →
      (s.events.map (fun x => x.providerEventId)).Nodup →
      ∃ s' stats, syncIcsEvents resp now s = .ok (s', stats) ∧
        findEvent s'.events r.providerEventId = some (softDelete now r)) ∧
    (∀ (fetch : Option String → Except String (List GoogleEvent × Option String))
        (now : Int) (ff : Bool) (conn : GoogleConnState)
        (evs : List GoogleEvent) (nt : Option String) (qid : String),
      conn.syncToken = none →
      fetch none = .ok (evs, nt) →
      (∀ g ∈ evs, g.id ≠ qid) →
      ∃ s' stats, syncGoogleEvents fetch now ff conn = .ok (s', stats) ∧
        s'.events.filter (fun r => r.providerEventId = qid) =
          conn.events.filter (fun r => r.providerEventId = qid)) ∧
    (∀ (fetch : Option String → Except String (List MicrosoftEvent × Option String))
        (now : Int) (ff : Bool) (conn : GoogleConnState)
        (evs : List MicrosoftEvent) (nt : Option String) (qid : String),
      conn.syncToken = none →
      fetch none = .ok (evs, nt) →
      (∀ m ∈ evs, m.id ≠ qid) →
      ∃ s' stats, syncMicrosoftEvents fetch now ff conn = .ok (s', stats) ∧
        s'.events.filter (fun r => r.providerEventId = qid) =
          conn.events.filter (fun r => r.providerEventId = qid)) := by
  refine ⟨?_, ?_, ?_⟩
  · intro resp now s comps r hurl hstat hparse hmem hlive hunseen hnd
    obtain ⟨status, etag, lastMod, parsed⟩ := resp
    obtain ⟨up, ce, cl, ls, events⟩ := s
    simp only at hurl hstat hparse hmem hnd
    subst hurl hstat hparse
    refine ⟨_, _, rfl, ?_⟩
    simp only [processIcsBatch, pruneUnseen]
    have hseen := processIcsBatchAux_seen comps events events []
      SyncStats.zero now
    have hcontains :
        (processIcsBatchAux events events [] SyncStats.zero comps now).2.1.contains
          r.providerEventId = false := by
      rw [hseen]
      simp only [List.nil_append]
      simpa using hunseen
    refine pruneUnseenAux_deletes _ (List.nodup_dedup _) _
      (List.mem_dedup.mpr (List.mem_map_of_mem _ hmem)) _ hcontains _ _ now r
      ?_ hlive
    rw [processIcsBatchAux_findEvent comps events events [] SyncStats.zero
      now _ (fun v hv he => hunseen (by rw [← he]; exact List.mem_map_of_mem _ hv))]
    exact findEvent_of_mem_nodup events r hmem hnd
  · intro fetch now ff conn evs nt qid hconn hfetch hids
    simp only [syncGoogleEvents, hconn, hfetch]
    refine ⟨_, _, rfl, ?_⟩
    exact processGoogleBatchAux_filter evs conn.events SyncStats.zero now qid hids
  · intro fetch now ff conn evs nt qid hconn hfetch hids
    simp only [syncMicrosoftEvents, hconn, ite_self, hfetch]
    refine ⟨_, _, rfl, ?_⟩
    exact processMicrosoftBatchAux_filter evs conn.events SyncStats.zero now qid hids

/-- C1 amended, witnessed at concrete inputs: an empty parsed ICS feed
soft-deletes the live row `evt-1`; empty Google and Microsoft full-sync
batches leave it untouched. -/
theorem c1_amended_witness :
    (∃ s' stats,
      syncIcsEvents ⟨200, none, none, .ok []⟩ 10 ⟨true, none, none, none, [sampleRow]⟩ =
        .ok (s', stats) ∧
      findEvent s'.events sampleRow.providerEventId = some (softDelete 10 sampleRow)) ∧
    (∃ s' stats,
      syncGoogleEvents (fun _ => .ok ([], some "t")) 10 false ⟨none, [sampleRow], none⟩ =
        .ok (s', stats) ∧
      s'.events.filter (fun r => r.providerEventId = "evt-1") =
        [sampleRow].filter (fun r => r.providerEventId = "evt-1")) ∧
    (∃ s' stats,
      syncMicrosoftEvents (fun _ => .ok ([], some "t")) 10 false ⟨none, [sampleRow], none⟩ =
        .ok (s', stats) ∧
      s'.events.filter (fun r => r.providerEventId = "evt-1") =
        [sampleRow].filter (fun r => r.providerEventId = "evt-1")) := by
  refine ⟨c1_amended_full_sync_deletion.1 _ 10 _ [] sampleRow rfl rfl rfl
      (List.mem_singleton.mpr rfl) rfl (by simp) (by simp),
    c1_amended_full_sync_deletion.2.1 _ 10 false ⟨none, [sampleRow], none⟩ [] (some "t")
      "evt-1" rfl rfl (by simp),
    c1_amended_full_sync_deletion.2.2 _ 10 false ⟨none, [sampleRow], none⟩ [] (some "t")
      "evt-1" rfl rfl (by simp)⟩

/-- C2: incremental sync is non-destructive.  For a pass run with a
stored cursor (a non-empty `sync_token` for Google, any stored token for
Microsoft, no `force_full_sync`), every local row whose provider event
id does not appear in the returned batch is carried through the pass
completely unchanged — in particular its `deleted_at` and sync status —
because the loops of `sync_google_events` / `sync_microsoft_events`
touch only rows whose id a batch event carries, and soft-delete only on
an explicit cancelled/removed signal. -/
theorem c2_incremental_non_destructive :
    (∀ (fetch : Option String → Except String (List GoogleEvent × Option String))
        (now : Int) (conn : GoogleConnState) (cp : String)
        (evs : List GoogleEvent) (nt : Option String) (qid : String),
      conn.syncToken = some cp → cp ≠ "" →
      fetch (some cp) = .ok (evs, nt) →
      (∀ g ∈ evs, g.id ≠ qid) →
      ∃ s' stats, syncGoogleEvents fetch now false conn = .ok (s', stats) ∧
        s'.events.filter (fun r => r.providerEventId = qid) =
          conn.events.filter (fun r => r.providerEventId = qid)) ∧
    (∀ (fetch : Option String → Except String (List MicrosoftEvent × Option String))
        (now : Int) (conn : GoogleConnState) (cp : String)
        (evs : List MicrosoftEvent) (nt : Option String) (qid : String),
      conn.syncToken = some cp →
      fetch (some cp) = .ok (evs, nt) →
      (∀ m ∈ evs, m.id ≠ qid) →
      ∃ s' stats, syncMicrosoftEvents fetch now false conn = .ok (s', stats) ∧
        s'.events.filter (fun r => r.providerEventId = qid) =
          conn.events.filter (fun r => r.providerEventId = qid)) := by
  constructor
  · intro fetch now conn cp evs nt qid hconn hcp hfetch hids
    simp only [syncGoogleEvents, hconn, Bool.false_or, hcp, decide_eq_true_eq,
      if_false, hfetch]
    refine ⟨_, _, rfl, ?_⟩
    exact processGoogleBatchAux_filter evs conn.events SyncStats.zero now qid hids
  · intro fetch now conn cp evs nt qid hconn hfetch hids
    simp only [syncMicrosoftEvents, Bool.false_eq_true, if_false, hconn, hfetch]
    refine ⟨_, _, rfl, ?_⟩
    exact processMicrosoftBatchAux_filter evs conn.events SyncStats.zero now qid hids

/-- C2 witnessed at a concrete incremental pass: a change-set batch that
does not mention the live row `evt-1` leaves it untouched, for both
OAuth providers. -/
theorem c2_witness :
    (∃ s' stats,
      syncGoogleEvents (fun _ => .ok ([], some "next")) 20 false
          ⟨some "cursor", [sampleRow], none⟩ = .ok (s', stats) ∧
      s'.events.filter (fun r => r.providerEventId = "evt-1") =
        [sampleRow].filter (fun r => r.providerEventId = "evt-1")) ∧
    (∃ s' stats,
      syncMicrosoftEvents (fun _ => .ok ([], some "next")) 20 false
          ⟨some "cursor", [sampleRow], none⟩ = .ok (s', stats) ∧
      s'.events.filter (fun r => r.providerEventId = "evt-1") =
        [sampleRow].filter (fun r => r.providerEventId = "evt-1")) :=
  ⟨c2_incremental_non_destructive.1 _ 20 ⟨some "cursor", [sampleRow], none⟩
      "cursor" [] (some "next") "evt-1" rfl (by decide) rfl (by simp),
   c2_incremental_non_destructive.2 _ 20 ⟨some "cursor", [sampleRow], none⟩
      "cursor" [] (some "next") "evt-1" rfl rfl (by simp)⟩

/-- C3: expired-cursor fallback.  When the stored cursor is reported
expired/invalid — `GoogleCalendarClient.get_events` raises
`ValueError("Sync token expired, full sync required")` on HTTP 410, whose
lower-cased text contains "sync required"; `get_delta_events` raises
`ValueError("INVALID_DELTA_TOKEN")` on HTTP 410 — the sync entry point
does not propagate the error: its `except` branch issues exactly one
retry with no cursor (visible in the conclusion, which only involves
`fetch none`), stores the cursor that retry returns on the connection,
and completes.  A fetch error not matching the cursor-expired pattern is
propagated unchanged. -/
theorem c3_cursor_fallback :
    (∀ (fetch : Option String → Except String (List GoogleEvent × Option String))
        (now : Int) (conn : GoogleConnState) (cp : String)
        (evs : List GoogleEvent) (t2 : String),
      conn.syncToken = some cp → cp ≠ "" →
      fetch (some cp) = .error "Sync token expired, full sync required" →
      fetch none = .ok (evs, some t2) → t2 ≠ "" →
      syncGoogleEvents fetch now false conn =
        .ok (⟨some t2, (processGoogleBatch conn.events evs now).1, some now⟩,
             (processGoogleBatch conn.events evs now).2)) ∧
    (∀ (fetch : Option String → Except String (List GoogleEvent × Option String))
        (now : Int) (conn : GoogleConnState) (cp e : String),
      conn.syncToken = some cp → cp ≠ "" →
      fetch (some cp) = .error e →
      strHasSub (strToLower e) "sync required" = false →
      syncGoogleEvents fetch now false conn = .error e) ∧
    (∀ (fetch : Option String → Except String (List MicrosoftEvent × Option String))
        (now : Int) (conn : GoogleConnState) (cp : String)
        (evs : List MicrosoftEvent) (t2 : String),
      conn.syncToken = some cp →
      fetch (some cp) = .error "INVALID_DELTA_TOKEN" →
      fetch none = .ok (evs, some t2) → t2 ≠ "" →
      syncMicrosoftEvents fetch now false conn =
        .ok (⟨some t2, (processMicrosoftBatch conn.events evs now).1, some now⟩,
             (processMicrosoftBatch conn.events evs now).2)) ∧
    (∀ (fetch : Option String → Except String (List MicrosoftEvent × Option String))
        (now : Int) (conn : GoogleConnState) (cp e : String),
      conn.syncToken = some cp →
      fetch (some cp) = .error e →
      strHasSub e "INVALID_DELTA_TOKEN" = false →
      syncMicrosoftEvents fetch now false conn = .error e) := by
  refine ⟨?_, ?_, ?_, ?_⟩
  · intro fetch now conn cp evs t2 hconn hcp hfetch1 hfetch2 ht2
    have hsub : strHasSub
        (strToLower "Sync token expired, full sync required")
        "sync required" = true := by decide
    simp only [syncGoogleEvents, hconn, Bool.false_or, hcp, decide_eq_true_eq,
      if_false, hfetch1, hsub, if_true, hfetch2, ht2]
  · intro fetch now conn cp e hconn hcp hfetch hsub
    simp only [syncGoogleEvents, hconn, Bool.false_or, hcp, decide_eq_true_eq,
      if_false, hfetch, hsub, Bool.false_eq_true]
  · intro fetch now conn cp evs t2 hconn hfetch1 hfetch2 ht2
    have hsub : strHasSub "INVALID_DELTA_TOKEN" "INVALID_DELTA_TOKEN" = true := by
      decide
    simp only [syncMicrosoftEvents, Bool.false_eq_true, if_false, hconn,
      hfetch1, hsub, if_true, hfetch2, ht2]
  · intro fetch now conn cp e hconn hfetch hsub
    simp only [syncMicrosoftEvents, Bool.false_eq_true, if_false, hconn,
      hfetch, hsub]

/-- C3 witnessed at concrete inputs: a fetch that rejects the stored
cursor and serves the full sync makes the pass complete with the fresh
cursor stored; a fetch failing with an unrelated message propagates it. -/
theorem c3_witness :
    syncGoogleEvents
        (fun c => match c with
          | some _ => .error "Sync token expired, full sync required"
          | none => .ok ([], some "fresh"))
        30 false ⟨some "stale", [sampleRow], none⟩ =
      .ok (⟨some "fresh", [sampleRow], some 30⟩, SyncStats.zero) ∧
    syncGoogleEvents (fun _ => .error "boom") 30 false
        ⟨some "stale", [sampleRow], none⟩ = .error "boom" ∧
    syncMicrosoftEvents
        (fun c => match c with
          | some _ => .error "INVALID_DELTA_TOKEN"
          | none => .ok ([], some "fresh"))
        30 false ⟨some "stale", [sampleRow], none⟩ =
      .ok (⟨some "fresh", [sampleRow], some 30⟩, SyncStats.zero) ∧
    syncMicrosoftEvents (fun _ => .error "boom") 30 false
        ⟨some "stale", [sampleRow], none⟩ = .error "boom" :=
  ⟨c3_cursor_fallback.1 _ 30 ⟨some "stale", [sampleRow], none⟩ "stale" []
      "fresh" rfl (by decide) rfl rfl (by decide),
   c3_cursor_fallback.2.1 _ 30 ⟨some "stale", [sampleRow], none⟩ "stale"
      "boom" rfl (by decide) rfl (by decide),
   c3_cursor_fallback.2.2.1 _ 30 ⟨some "stale", [sampleRow], none⟩ "stale" []
      "fresh" rfl rfl rfl (by decide),
   c3_cursor_fallback.2.2.2 _ 30 ⟨some "stale", [sampleRow], none⟩ "stale"
      "boom" rfl rfl (by decide)⟩

/-- C4: a malformed ICS feed aborts the pass without mutating persisted
state.  When the fetched body of a 200 response fails to parse,
`sync_ics_events` raises (the parse error propagates as the result) and
the `except` handler's `db.rollback()` reverts every uncommitted session
write — including the `ics_etag` / `ics_last_modified` assignments made
just before the parse — so the committed connection state (cache
validators, last-synced timestamp) and every event row keep their prior
values: in the model, an `Except.error` result carries no new state and
the caller keeps the input `s` unchanged. -/
theorem c4_ics_parse_failure_aborts (resp : IcsHttpResponse) (now : Int)
    (s : IcsConnState) (pe : String)
    (hurl : s.icsUrlPresent = true) (hstat : resp.status = 200)
    (hparse : resp.parsed = .error pe) :
    syncIcsEvents resp now s = .error pe := by
  obtain ⟨status, etag, lastMod, parsed⟩ := resp
  obtain ⟨up, ce, cl, ls, events⟩ := s
  simp only at hurl hstat hparse
  subst hurl hstat hparse
  rfl

/-- C4 witnessed: a concrete unparseable 200 response makes the pass
raise the parse error while the connection still holds its prior
validators, timestamp and rows. -/
theorem c4_witness :
    syncIcsEvents ⟨200, some "new-etag", some "new-lm", .error "Invalid ICS format"⟩
        40 ⟨true, some "etag-0", some "lm-0", some 3, [sampleRow]⟩ =
      .error "Invalid ICS format" :=
  c4_ics_parse_failure_aborts
    ⟨200, some "new-etag", some "new-lm", .error "Invalid ICS format"⟩
    40 ⟨true, some "etag-0", some "lm-0", some 3, [sampleRow]⟩
    "Invalid ICS format" rfl rfl rfl

/-- C10 counterexample.  The claim says every observed event without a
cancel/removed signal resurrects a previously soft-deleted matching row
(deleted_at null, sync status SYNCED after the upsert).  An ICS `VEVENT`
that carries the row's UID but no `DTSTART` refutes it: the component is
observed (its UID enters `seen_event_ids`, so the prune loop also skips
the row) and carries no cancel signal, yet `_upsert_ics_event` returns
"skipped" before writing `event_data`, so the row stays soft-deleted
after the whole pass. -/
theorem c10_skipped_ics_event_not_resurrected :
    syncIcsEvents
        ⟨200, none, none,
          .ok [⟨"evt-1", "Standup", none, none, none, false, none, "CONFIRMED", none⟩]⟩
        10 ⟨true, none, none, none, [sampleRowDeleted]⟩ =
      .ok (⟨true, none, none, some 10, [sampleRowDeleted]⟩, ⟨1, 0, 0, 0⟩) ∧
    sampleRowDeleted.deletedAt = some 5 ∧
    sampleRowDeleted.syncStatus = SyncStatus.deleted := ⟨rfl, rfl, rfl⟩

/-- C10 as amended: an upsert for an observed event without a
cancel/removed signal — any non-cancelled Google event, any Microsoft
event that is neither `@removed` nor cancelled, and any ICS component
that carries a `DTSTART` — rewrites the matching local row with
`deleted_at` null and sync status SYNCED, resurrecting a previously
soft-deleted row in place; an ICS component without a `DTSTART` is
skipped and leaves the row untouched (the counterexample). -/
theorem c10_amended_upsert_resurrects :
    (∀ (db : List EventRow) (g : GoogleEvent) (now : Int) (r : EventRow),
      g.status ≠ "cancelled" →
      findEvent db g.id = some r →
      ∃ r', findEvent (upsertGoogleEvent db g now).1 g.id = some r' ∧
        r'.deletedAt = none ∧ r'.syncStatus = SyncStatus.synced ∧
        (upsertGoogleEvent db g now).2 = .updated) ∧
    (∀ (db : List EventRow) (m : MicrosoftEvent) (now : Int) (r : EventRow),
      m.isRemoved = false → m.isCancelled = false →
      findEvent db m.id = some r →
      ∃ r', findEvent (upsertMicrosoftEvent db m now).1 m.id = some r' ∧
        r'.deletedAt = none ∧ r'.syncStatus = SyncStatus.synced ∧
        (upsertMicrosoftEvent db m now).2 = .updated) ∧
    (∀ (db : List EventRow) (v : IcsVEvent) (eventId : String)
        (ex : EventRow) (now : Int) (st : Int) (r : EventRow),
      v.dtstart = some st →
      findEvent db eventId = some r →
      ∃ r', findEvent (upsertIcsEvent db v eventId (some ex) now).1 eventId =
          some r' ∧
        r'.deletedAt = none ∧ r'.syncStatus = SyncStatus.synced ∧
        (upsertIcsEvent db v eventId (some ex) now).2 = .updated) := by
  refine ⟨?_, ?_, ?_⟩
  · intro db g now r hc hfind
    have hfind2 : findEvent (upsertGoogleEvent db g now).1 g.id =
        some { googleEventData g now r with updatedAt := some now } := by
      simp only [upsertGoogleEvent, hfind, hc, if_false]
      rw [findEvent_updateFirst_self db g.id
        (fun x => { googleEventData g now x with updatedAt := some now })
        (fun x => rfl), hfind]
      rfl
    have hres : (upsertGoogleEvent db g now).2 = .updated := by
      simp only [upsertGoogleEvent, hfind, hc, if_false]
    exact ⟨_, hfind2, rfl, rfl, hres⟩
  · intro db m now r hr hc hfind
    have hfind2 : findEvent (upsertMicrosoftEvent db m now).1 m.id =
        some { microsoftEventData m now r with updatedAt := some now } := by
      simp only [upsertMicrosoftEvent, hfind, hr, hc, Bool.false_eq_true,
        if_false]
      rw [findEvent_updateFirst_self db m.id
        (fun x => { microsoftEventData m now x with updatedAt := some now })
        (fun x => rfl), hfind]
      rfl
    have hres : (upsertMicrosoftEvent db m now).2 = .updated := by
      simp only [upsertMicrosoftEvent, hfind, hr, hc, Bool.false_eq_true,
        if_false]
    exact ⟨_, hfind2, rfl, rfl, hres⟩
  · intro db v eventId ex now st r hst hfind
    have hfind2 : findEvent (upsertIcsEvent db v eventId (some ex) now).1
        eventId = some { icsEventData v st now r with updatedAt := some now } := by
      simp only [upsertIcsEvent, hst]
      rw [findEvent_updateFirst_self db eventId
        (fun x => { icsEventData v st now x with updatedAt := some now })
        (fun x => by simp [icsEventData]), hfind]
      rfl
    have hres : (upsertIcsEvent db v eventId (some ex) now).2 = .updated := by
      simp only [upsertIcsEvent, hst]
    exact ⟨_, hfind2, by simp [icsEventData], by simp [icsEventData], hres⟩

/-- C10 amended, witnessed: concrete non-cancelled events of each
provider resurrect the soft-deleted row `evt-1`. -/
theorem c10_amended_witness :
    (∃ r', findEvent (upsertGoogleEvent [sampleRowDeleted]
        ⟨"evt-1", "confirmed", "Standup", none, none, 600, 660, false, "UTC",
          none, none, none, [], none⟩ 10).1 "evt-1" = some r' ∧
      r'.deletedAt = none ∧ r'.syncStatus = SyncStatus.synced ∧
      (upsertGoogleEvent [sampleRowDeleted]
        ⟨"evt-1", "confirmed", "Standup", none, none, 600, 660, false, "UTC",
          none, none, none, [], none⟩ 10).2 = .updated) ∧
    (∃ r', findEvent (upsertMicrosoftEvent [sampleRowDeleted]
        ⟨"evt-1", "Standup", none, none, 600, 660, false, "UTC", none, none,
          false, none, none, none, false, none, none, false, false⟩ 10).1
          "evt-1" = some r' ∧
      r'.deletedAt = none ∧ r'.syncStatus = SyncStatus.synced ∧
      (upsertMicrosoftEvent [sampleRowDeleted]
        ⟨"evt-1", "Standup", none, none, 600, 660, false, "UTC", none, none,
          false, none, none, none, false, none, none, false, false⟩ 10).2 =
        .updated) ∧
    (∃ r', findEvent (upsertIcsEvent [sampleRowDeleted]
        ⟨"evt-1", "Standup", none, none, some 600, false, some 660, "CONFIRMED",
          none⟩ "evt-1" (some sampleRowDeleted) 10).1 "evt-1" = some r' ∧
      r'.deletedAt = none ∧ r'.syncStatus = SyncStatus.synced ∧
      (upsertIcsEvent [sampleRowDeleted]
        ⟨"evt-1", "Standup", none, none, some 600, false, some 660, "CONFIRMED",
          none⟩ "evt-1" (some sampleRowDeleted) 10).2 = .updated) :=
  ⟨c10_amended_upsert_resurrects.1 [sampleRowDeleted] _ 10 sampleRowDeleted
      (by decide) rfl,
   c10_amended_upsert_resurrects.2.1 [sampleRowDeleted] _ 10 sampleRowDeleted
      rfl rfl rfl,
   c10_amended_upsert_resurrects.2.2 [sampleRowDeleted] _ "evt-1"
      sampleRowDeleted 10 600 sampleRowDeleted rfl rfl⟩

/-- Concrete evaluation: the gap 08:00-09:00 survives a 30-minute
minimum. -/
theorem extract_480_540_min30 :
    (FreeTimeCalculator.mk 0 6 30).extractValidSlots 480 540 = [⟨480, 540, 60⟩] := by
  rw [FreeTimeCalculator.extractValidSlots]
  norm_num [FreeTimeCalculator.isExcludedHour, FreeTimeCalculator.endOfValidPeriod]
  rw [FreeTimeCalculator.extractValidSlots]
  norm_num

/-- Concrete evaluation: the residual gap 11:00-12:00 survives a
30-minute minimum. -/
theorem extract_660_720_min30 :
    (FreeTimeCalculator.mk 0 6 30).extractValidSlots 660 720 = [⟨660, 720, 60⟩] := by
  rw [FreeTimeCalculator.extractValidSlots]
  norm_num [FreeTimeCalculator.isExcludedHour, FreeTimeCalculator.endOfValidPeriod]
  rw [FreeTimeCalculator.extractValidSlots]
  norm_num

/-- Concrete evaluation: a 60-minute gap is dropped under a 90-minute
minimum. -/
theorem extract_480_540_min90 :
    (FreeTimeCalculator.mk 0 6 90).extractValidSlots 480 540 = [] := by
  rw [FreeTimeCalculator.extractValidSlots]
  norm_num [FreeTimeCalculator.isExcludedHour, FreeTimeCalculator.endOfValidPeriod]
  rw [FreeTimeCalculator.extractValidSlots]
  norm_num

theorem extract_660_720_min90 :
    (FreeTimeCalculator.mk 0 6 90).extractValidSlots 660 720 = [] := by
  rw [FreeTimeCalculator.extractValidSlots]
  norm_num [FreeTimeCalculator.isExcludedHour, FreeTimeCalculator.endOfValidPeriod]
  rw [FreeTimeCalculator.extractValidSlots]
  norm_num

/-- C5 counterexample.  The claim says the free-slot query over
[08:00,12:00] (minutes 480-720) against the merged busy set with a
30-minute minimum returns exactly [(08:00,09:00)].  It does not: the
residual gap (11:00,12:00) is 60 minutes long, which meets the 30-minute
minimum, so — exactly as the claim's own parenthetical predicts — it is
returned as well, and the result is the two-slot list. -/
theorem c5_residual_slot_is_returned :
    (FreeTimeCalculator.mk 0 6 30).findFreeSlots [⟨540, 600⟩, ⟨570, 660⟩] 480 720 =
      [⟨480, 540, 60⟩, ⟨660, 720, 60⟩] ∧
    (FreeTimeCalculator.mk 0 6 30).findFreeSlots [⟨540, 600⟩, ⟨570, 660⟩] 480 720 ≠
      [⟨480, 540, 60⟩] := by
  constructor
  · simp [FreeTimeCalculator.findFreeSlots, FreeTimeCalculator.mergeBusyBlocks,
      sortByStart, insertByStart, extract_480_540_min30, extract_660_720_min30]
  · intro h
    rw [show (FreeTimeCalculator.mk 0 6 30).findFreeSlots
        [⟨540, 600⟩, ⟨570, 660⟩] 480 720 = [⟨480, 540, 60⟩, ⟨660, 720, 60⟩] from by
      simp [FreeTimeCalculator.findFreeSlots, FreeTimeCalculator.mergeBusyBlocks,
        sortByStart, insertByStart, extract_480_540_min30, extract_660_720_min30]]
      at h
    cases h

/-- C5 as amended: merging the busy intervals [(09:00,10:00),
(09:30,11:00)] (minutes (540,600), (570,660)) yields the single block
(09:00,11:00); the free-slot query over [08:00,12:00] with a 30-minute
minimum returns [(08:00,09:00), (11:00,12:00)] — the (11:00,12:00)
residual is included because its 60-minute duration meets the minimum —
and with a 90-minute minimum both 60-minute gaps are dropped and the
query returns the empty list. -/
theorem c5_amended_merge_and_free_slots :
    (FreeTimeCalculator.mk 0 6 30).mergeBusyBlocks [⟨540, 600⟩, ⟨570, 660⟩] =
      [⟨540, 660⟩] ∧
    (FreeTimeCalculator.mk 0 6 30).findFreeSlots [⟨540, 600⟩, ⟨570, 660⟩] 480 720 =
      [⟨480, 540, 60⟩, ⟨660, 720, 60⟩] ∧
    (FreeTimeCalculator.mk 0 6 90).findFreeSlots [⟨540, 600⟩, ⟨570, 660⟩] 480 720 =
      [] := by
  refine ⟨?_, ?_, ?_⟩
  · simp [FreeTimeCalculator.mergeBusyBlocks, sortByStart, insertByStart]
  · simp [FreeTimeCalculator.findFreeSlots, FreeTimeCalculator.mergeBusyBlocks,
      sortByStart, insertByStart, extract_480_540_min30, extract_660_720_min30]
  · simp [FreeTimeCalculator.findFreeSlots, FreeTimeCalculator.mergeBusyBlocks,
      sortByStart, insertByStart, extract_480_540_min90, extract_660_720_min90]

/-- C6: webhook client-state rejection.  A notification whose
client-state value differs from the (non-empty) secret stored on the
matching active subscription is dropped by the early `return` at
webhook.py lines 90-92: the result action is `drop`, so
`sync_microsoft_events` is never invoked for it, and the subscription
table — including `last_notification_at`, which is stamped only after
the check — is returned unchanged, hence the connection's events and
cursor are untouched. -/
theorem c6_client_state_mismatch_drops (subs : List WebhookSubscriptionRow)
    (n : MsNotification) (now : Int) (sid cs : String)
    (sub : WebhookSubscriptionRow)
    (hsid : n.subscriptionId = some sid) (hne : sid ≠ "")
    (hfound : subs.find? (fun s => s.subscriptionId = sid && s.isActive) = some sub)
    (hcs : sub.clientState = some cs) (hcsne : cs ≠ "")
    (hmismatch : n.clientState ≠ some cs) :
    processMicrosoftNotification subs n now = (subs, .drop) := by
  simp only [processMicrosoftNotification, hsid, hne, if_false, hfound, hcs,
    hcsne, hmismatch]
  simp [hne, hcsne, hmismatch]

/-- C6 witnessed: a concrete notification carrying the wrong client
state against an active subscription with stored secret "s3cret" is
dropped with the subscription table unchanged. -/
theorem c6_witness :
    processMicrosoftNotification [⟨"sub-1", true, some "s3cret", none, 7⟩]
        ⟨some "sub-1", some "wrong", some "updated", some "/me/events"⟩ 50 =
      ([⟨"sub-1", true, some "s3cret", none, 7⟩], .drop) :=
  c6_client_state_mismatch_drops [⟨"sub-1", true, some "s3cret", none, 7⟩]
    ⟨some "sub-1", some "wrong", some "updated", some "/me/events"⟩ 50
    "sub-1" "s3cret" ⟨"sub-1", true, some "s3cret", none, 7⟩
    rfl (by decide) rfl rfl (by decide) (by decide)

/-- C8: a malformed recurrence rule yields an empty expansion.  For
every recurring event whose stored rule string the `rrulestr` call fails
to parse (`parseRrule` returns `none`, modelling the raised exception
caught at recurrence.py lines 48-52), `expand_recurring_event` returns
`[]` — and, being a total function whose every failure path is the
caught-and-return-[] branch, it does not raise — for every expansion
window and max-instances argument. -/
theorem c8_unparseable_rule_empty_expansion {R : Type}
    (parseRrule : String → Int → Option R)
    (between : R → Int → Int → List Int) (isoOfTime : Int → String)
    (ev : RecurringEventModel) (rangeStart rangeEnd : Int)
    (maxInstances : Nat) (ru : String)
    (hrec : ev.isRecurring = true) (hrule : ev.recurrenceRule = some ru)
    (hparse : parseRrule ru ev.startTime = none) :
    expandRecurringEvent parseRrule between isoOfTime ev rangeStart rangeEnd
      maxInstances = [] := by
  unfold expandRecurringEvent
  by_cases hru : ru = ""
  · simp [hrec, hrule, hru]
  · simp only [hrec, hrule, Option.getD_some, hru, Bool.not_true,
      Bool.false_or, if_false, hparse]
    simp [hru]

/-- C8 witnessed at a concrete daily event whose rule no parser accepts:
the expansion over a concrete window is empty. -/
theorem c8_witness :
    expandRecurringEvent (fun _ _ => (none : Option Unit))
        (fun _ _ _ => ([] : List Int)) (fun _ => "")
        ⟨"11111111-2222-3333-4444-555555555555", "Broken", true,
          some "RRULE:FREQ=GARBAGE", 540, 600, []⟩ 0 10080 100 = [] :=
  c8_unparseable_rule_empty_expansion (fun _ _ => none) (fun _ _ _ => [])
    (fun _ => "")
    ⟨"11111111-2222-3333-4444-555555555555", "Broken", true,
      some "RRULE:FREQ=GARBAGE", 540, 600, []⟩ 0 10080 100
    "RRULE:FREQ=GARBAGE" rfl rfl rfl

theorem digitCharOf_ne_underscore (d : Nat) : digitCharOf d ≠ '_' := by
  unfold digitCharOf
  split_ifs <;> decide

theorem hexDigitCharOf_ne_underscore (d : Nat) : hexDigitCharOf d ≠ '_' := by
  unfold hexDigitCharOf
  split_ifs
  · exact digitCharOf_ne_underscore d
  all_goals decide

theorem natDigits_ne_underscore (n : Nat) : ∀ c ∈ natDigits n, c ≠ '_' := by
  induction n using Nat.strong_induction_on with
  | _ n ih =>
    rw [natDigits]
    by_cases h : n < 10
    · simp only [h, dif_pos]
      intro c hc
      rw [List.mem_singleton.mp hc]
      exact digitCharOf_ne_underscore n
    · simp only [h, dif_neg, not_false_iff]
      intro c hc
      rcases List.mem_append.mp hc with h1 | h2
      · exact ih (n / 10) (Nat.div_lt_self (by omega) (by norm_num)) c h1
      · rw [List.mem_singleton.mp h2]
        exact digitCharOf_ne_underscore _

theorem hexDigits_ne_underscore (n : Nat) : ∀ c ∈ hexDigits n, c ≠ '_' := by
  induction n using Nat.strong_induction_on with
  | _ n ih =>
    rw [hexDigits]
    by_cases h : n < 16
    · simp only [h, dif_pos]
      intro c hc
      rw [List.mem_singleton.mp hc]
      exact hexDigitCharOf_ne_underscore n
    · simp only [h, dif_neg, not_false_iff]
      intro c hc
      rcases List.mem_append.mp hc with h1 | h2
      · exact ih (n / 16) (Nat.div_lt_self (by omega) (by norm_num)) c h1
      · rw [List.mem_singleton.mp h2]
        exact hexDigitCharOf_ne_underscore _

theorem padDigits_ne_underscore (w : Nat) (s : List Char)
    (hs : ∀ c ∈ s, c ≠ '_') : ∀ c ∈ padDigits w s, c ≠ '_' := by
  intro c hc
  rcases List.mem_append.mp hc with h1 | h2
  · rw [List.eq_of_mem_replicate h1]
    decide
  · exact hs c h2

/-- No character of `datetime.isoformat()` output is an underscore. -/
theorem isoformat_no_underscore (d : PyDatetime) :
    '_' ∉ (PyDatetime.isoformat d).data := by
  intro hmem
  simp only [PyDatetime.isoformat] at hmem
  rcases List.mem_append.mp hmem with h | h
  rotate_left
  · exact padDigits_ne_underscore 2 _ (natDigits_ne_underscore _) _ h rfl
  rcases List.mem_append.mp h with h | h
  rotate_left
  · exact absurd (List.mem_singleton.mp h) (by decide)
  rcases List.mem_append.mp h with h | h
  rotate_left
  · exact padDigits_ne_underscore 2 _ (natDigits_ne_underscore _) _ h rfl
  rcases List.mem_append.mp h with h | h
  rotate_left
  · exact absurd (List.mem_singleton.mp h) (by decide)
  rcases List.mem_append.mp h with h | h
  rotate_left
  · exact padDigits_ne_underscore 2 _ (natDigits_ne_underscore _) _ h rfl
  rcases List.mem_append.mp h with h | h
  rotate_left
  · exact absurd (List.mem_singleton.mp h) (by decide)
  rcases List.mem_append.mp h with h | h
  rotate_left
  · exact padDigits_ne_underscore 2 _ (natDigits_ne_underscore _) _ h rfl
  rcases List.mem_append.mp h with h | h
  rotate_left
  · exact absurd (List.mem_singleton.mp h) (by decide)
  rcases List.mem_append.mp h with h | h
  rotate_left
  · exact padDigits_ne_underscore 2 _ (natDigits_ne_underscore _) _ h rfl
  rcases List.mem_append.mp h with h | h
  · exact padDigits_ne_underscore 4 _ (natDigits_ne_underscore _) _ h rfl
  · exact absurd (List.mem_singleton.mp h) (by decide)

/-- No character of `str(uuid)` is an underscore. -/
theorem uuid_render_no_underscore (u : PyUuid) :
    '_' ∉ (PyUuid.render u).data := by
  intro hmem
  simp only [PyUuid.render] at hmem
  rcases List.mem_append.mp hmem with h | h
  rotate_left
  · exact padDigits_ne_underscore 12 _ (hexDigits_ne_underscore _) _ h rfl
  rcases List.mem_append.mp h with h | h
  rotate_left
  · exact absurd (List.mem_singleton.mp h) (by decide)
  rcases List.mem_append.mp h with h | h
  rotate_left
  · exact padDigits_ne_underscore 4 _ (hexDigits_ne_underscore _) _ h rfl
  rcases List.mem_append.mp h with h | h
  rotate_left
  · exact absurd (List.mem_singleton.mp h) (by decide)
  rcases List.mem_append.mp h with h | h
  rotate_left
  · exact padDigits_ne_underscore 4 _ (hexDigits_ne_underscore _) _ h rfl
  rcases List.mem_append.mp h with h | h
  rotate_left
  · exact absurd (List.mem_singleton.mp h) (by decide)
  rcases List.mem_append.mp h with h | h
  rotate_left
  · exact padDigits_ne_underscore 4 _ (hexDigits_ne_underscore _) _ h rfl
  rcases List.mem_append.mp h with h | h
  · exact padDigits_ne_underscore 8 _ (hexDigits_ne_underscore _) _ h rfl
  · exact absurd (List.mem_singleton.mp h) (by decide)

theorem rsplitLast_eq_none (sep : Char) (l : List Char) (h : sep ∉ l) :
    rsplitLast sep l = none := by
  induction l with
  | nil => rfl
  | cons c rest ih =>
      have hc : c ≠ sep := fun he => h (he ▸ List.mem_cons_self c rest)
      have hr : sep ∉ rest := fun hm => h (List.mem_cons_of_mem _ hm)
      simp [rsplitLast, ih hr, hc]

/-- `rsplit(sep, 1)` on `a ++ sep :: b` with `sep` absent from `b` splits
exactly at that separator. -/
theorem rsplitLast_append (sep : Char) (a b : List Char) (hb : sep ∉ b) :
    rsplitLast sep (a ++ sep :: b) = some (a, b) := by
  induction a with
  | nil => simp [rsplitLast, rsplitLast_eq_none sep b hb]
  | cons c rest ih => simp [rsplitLast, ih]

/-- C7: the composite instance identifier is reversible.  For every
series id rendered from a UUID and every occurrence start rendered by
`isoformat()` — neither of which can contain an underscore — splitting
`f"{seriesId}_{isoStart}"` at its last underscore, as `get_event_by_id`
does with `event_id.rsplit("_", 1)`, recovers exactly the original
series id and the original occurrence start string. -/
theorem c7_composite_id_reversible (u : PyUuid) (dt : PyDatetime) :
    parseCompositeEventId (mkInstanceId (PyUuid.render u) (PyDatetime.isoformat dt)) =
      some (PyUuid.render u, PyDatetime.isoformat dt) := by
  have hdata : (mkInstanceId (PyUuid.render u) (PyDatetime.isoformat dt)).data =
      (PyUuid.render u).data ++ '_' :: (PyDatetime.isoformat dt).data := by
    simp [mkInstanceId, String.data_append]
  simp only [parseCompositeEventId, hdata,
    rsplitLast_append '_' _ _ (isoformat_no_underscore dt)]

theorem oauthStateValid_state_ne (p : CalendarProviderTag) (s : String)
    (now : Int) (x : OAuthStateRow) (hx : x.state ≠ s) :
    oauthStateValid p s now x = false := by
  simp [oauthStateValid, hx]

/-- When the table holds exactly one row with the presented state and it
passes the validation filter, the validation query returns it. -/
theorem find_oauthState_of_filter_singleton (db : List OAuthStateRow)
    (p : CalendarProviderTag) (s : String) (now : Int) (r : OAuthStateRow)
    (hfilter : db.filter (fun x => x.state = s) = [r])
    (hvalid : oauthStateValid p s now r = true) :
    db.find? (oauthStateValid p s now) = some r := by
  induction db with
  | nil => simp at hfilter
  | cons x rest ih =>
      by_cases hx : x.state = s
      · rw [List.filter_cons_of_pos (by simpa using hx)] at hfilter
        obtain ⟨hxr, hrest⟩ := List.cons_eq_cons.mp hfilter
        subst hxr
        simp [List.find?_cons, hvalid]
      · rw [List.filter_cons_of_neg (by simpa using hx)] at hfilter
        simp [List.find?_cons, oauthStateValid_state_ne p s now x hx]
        exact ih hfilter

/-- Consuming the single matching row leaves the table with that row
marked consumed and every other row untouched. -/
theorem consumeFirst_filter_singleton (db : List OAuthStateRow)
    (p : CalendarProviderTag) (s : String) (now : Int) (r : OAuthStateRow)
    (hfilter : db.filter (fun x => x.state = s) = [r])
    (hvalid : oauthStateValid p s now r = true) :
    (consumeFirst db p s now).filter (fun x => x.state = s) =
      [{ r with consumed := true }] := by
  induction db with
  | nil => simp at hfilter
  | cons x rest ih =>
      by_cases hx : x.state = s
      · rw [List.filter_cons_of_pos (by simpa using hx)] at hfilter
        obtain ⟨hxr, hrest⟩ := List.cons_eq_cons.mp hfilter
        subst hxr
        rw [show consumeFirst (x :: rest) p s now =
            { x with consumed := true } :: rest by simp [consumeFirst, hvalid]]
        rw [List.filter_cons_of_pos (by simpa using hx)]
        rw [hrest]
      · rw [List.filter_cons_of_neg (by simpa using hx)] at hfilter
        rw [show consumeFirst (x :: rest) p s now =
            x :: consumeFirst rest p s now by
          simp [consumeFirst, oauthStateValid_state_ne p s now x hx]]
        rw [List.filter_cons_of_neg (by simpa using hx)]
        exact ih hfilter

/-- A consumed row never passes the validation filter again, at any
time. -/
theorem oauthStateValid_consumed (p : CalendarProviderTag) (s : String)
    (now2 : Int) (r : OAuthStateRow) :
    oauthStateValid p s now2 { r with consumed := true } = false := by
  simp [oauthStateValid]

/-- C9: OAuth handshake state tokens are single-use and expire 15
minutes after creation.  (i) `initiate_*_oauth` stores the state
unconsumed with `expires_at = now + 15 minutes`.  (ii) A callback
presenting a state whose every matching row is already consumed or past
expiry (the query filters `consumed == False AND expires_at > now`)
fails with the `invalid_state` redirect, leaving the table unchanged,
and (iii) that outcome is a different constructor from the
provider-denied redirect (`error=...`), hence distinguishable.  (iv) A
valid state is marked consumed and committed before the code exchange
runs — the table returned by the callback contains the consumed row for
every exchange outcome, success or failure — so presenting the same
state a second time, at any time and with any code, fails with
`invalid_state`. -/
theorem c9_oauth_state_single_use :
    (∀ (db : List OAuthStateRow) (uid : Nat) (p : CalendarProviderTag)
        (st : String) (now : Int),
      oauthStateLifetime = 15 ∧
      initiateOAuth db uid p st now =
        db ++ [⟨uid, p, st, false, now + oauthStateLifetime⟩]) ∧
    (∀ (db : List OAuthStateRow) (now : Int) (p : CalendarProviderTag)
        (c s : String) (exch : String → Except String Unit),
      c ≠ "" → s ≠ "" →
      (∀ r ∈ db, r.state = s → r.provider = p →
        (r.consumed = true ∨ r.expiresAt ≤ now)) →
      handleOAuthCallback db now p (some c) (some s) none exch =
        (db, .invalidState)) ∧
    (∀ e : String,
      (OAuthCallbackOutcome.invalidState ≠ OAuthCallbackOutcome.providerError e)) ∧
    (∀ (db : List OAuthStateRow) (now now2 : Int) (p : CalendarProviderTag)
        (c c2 s : String) (exch exch2 : String → Except String Unit)
        (r : OAuthStateRow),
      c ≠ "" → s ≠ "" → c2 ≠ "" →
      db.filter (fun x => x.state = s) = [r] →
      oauthStateValid p s now r = true →
      (handleOAuthCallback db now p (some c) (some s) none exch).1 =
        consumeFirst db p s now ∧
      { r with consumed := true } ∈
        (handleOAuthCallback db now p (some c) (some s) none exch).1 ∧
      handleOAuthCallback
          (handleOAuthCallback db now p (some c) (some s) none exch).1 now2 p
          (some c2) (some s) none exch2 =
        ((handleOAuthCallback db now p (some c) (some s) none exch).1,
         .invalidState)) := by
  refine ⟨?_, ?_, ?_, ?_⟩
  · intro db uid p st now
    exact ⟨rfl, rfl⟩
  · intro db now p c s exch hc hs hdead
    have hnone : db.find? (oauthStateValid p s now) = none := by
      rw [List.find?_eq_none]
      intro x hx hvalid
      simp only [oauthStateValid, Bool.and_eq_true, decide_eq_true_eq] at hvalid
      obtain ⟨⟨⟨hstate, hprov⟩, hcons⟩, hexp⟩ := hvalid
      rcases hdead x hx hstate hprov with h1 | h1
      · rw [h1] at hcons
        cases hcons
      · omega
    simp [handleOAuthCallback, hc, hs, hnone]
  · intro e
    intro h
    cases h
  · intro db now now2 p c c2 s exch exch2 r hc hc2 hs hfilter hvalid
    have hfind := find_oauthState_of_filter_singleton db p s now r hfilter hvalid
    have hrun : (handleOAuthCallback db now p (some c) (some s) none exch).1 =
        consumeFirst db p s now := by
      simp only [handleOAuthCallback, hc, hc2, hfind]
      cases exch c <;> simp [hc, hc2]
    have hcf := consumeFirst_filter_singleton db p s now r hfilter hvalid
    have hmem : { r with consumed := true } ∈ consumeFirst db p s now := by
      have : { r with consumed := true } ∈
          (consumeFirst db p s now).filter (fun x => x.state = s) := by
        rw [hcf]
        exact List.mem_singleton.mpr rfl
      exact (List.mem_filter.mp this).1
    have hnone2 : (consumeFirst db p s now).find? (oauthStateValid p s now2) =
        none := by
      rw [List.find?_eq_none]
      intro x hx hvalidx
      by_cases hxs : x.state = s
      · have hxmem : x ∈ (consumeFirst db p s now).filter
            (fun y => y.state = s) :=
          List.mem_filter.mpr ⟨hx, by simpa using hxs⟩
        rw [hcf] at hxmem
        rw [List.mem_singleton.mp hxmem] at hvalidx
        rw [oauthStateValid_consumed p s now2 r] at hvalidx
        cases hvalidx
      · rw [oauthStateValid_state_ne p s now2 x hxs] at hvalidx
        cases hvalidx
    refine ⟨hrun, hrun ▸ hmem, ?_⟩
    rw [hrun]
    simp [handleOAuthCallback, hc2, hc, hs, hnone2]

/-- C9 witnessed at concrete inputs: a fresh state stored at time 100
expires at 115; a callback at time 100 against a table whose matching
rows are consumed or expired yields `invalid_state`; the denied-consent
outcome is a different constructor; a valid state consumed at time 100
is rejected with `invalid_state` when replayed at time 150. -/
theorem c9_witness :
    (oauthStateLifetime = 15 ∧
      initiateOAuth [] 1 .google "state-1" 100 =
        [] ++ [⟨1, .google, "state-1", false, 100 + oauthStateLifetime⟩]) ∧
    handleOAuthCallback
        [⟨1, .google, "s1", true, 1000⟩, ⟨2, .google, "s1", false, 50⟩]
        100 .google (some "code") (some "s1") none (fun _ => .ok ()) =
      ([⟨1, .google, "s1", true, 1000⟩, ⟨2, .google, "s1", false, 50⟩],
       .invalidState) ∧
    (OAuthCallbackOutcome.invalidState ≠
      OAuthCallbackOutcome.providerError "access_denied") ∧
    ((handleOAuthCallback [⟨1, .google, "s1", false, 200⟩] 100 .google
        (some "code1") (some "s1") none (fun _ => .ok ())).1 =
      consumeFirst [⟨1, .google, "s1", false, 200⟩] .google "s1" 100 ∧
    ({ userId := 1, provider := .google, state := "s1", consumed := false,
        expiresAt := 200 : OAuthStateRow} : OAuthStateRow).consumed = false ∧
    handleOAuthCallback
        (handleOAuthCallback [⟨1, .google, "s1", false, 200⟩] 100 .google
          (some "code1") (some "s1") none (fun _ => .ok ())).1 150 .google
        (some "code2") (some "s1") none (fun _ => .ok ()) =
      ((handleOAuthCallback [⟨1, .google, "s1", false, 200⟩] 100 .google
          (some "code1") (some "s1") none (fun _ => .ok ())).1,
       .invalidState)) :=
  ⟨c9_oauth_state_single_use.1 [] 1 .google "state-1" 100,
   c9_oauth_state_single_use.2.1
     [⟨1, .google, "s1", true, 1000⟩, ⟨2, .google, "s1", false, 50⟩]
     100 .google "code" "s1" (fun _ => .ok ()) (by decide) (by decide)
     (by decide),
   c9_oauth_state_single_use.2.2.1 "access_denied",
   (c9_oauth_state_single_use.2.2.2 [⟨1, .google, "s1", false, 200⟩] 100 150
     .google "code1" "code2" "s1" (fun _ => .ok ()) (fun _ => .ok ())
     ⟨1, .google, "s1", false, 200⟩ (by decide) (by decide) (by decide)
     (by decide) (by decide)).1,
   rfl,
   (c9_oauth_state_single_use.2.2.2 [⟨1, .google, "s1", false, 200⟩] 100 150
     .google "code1" "code2" "s1" (fun _ => .ok ()) (fun _ => .ok ())
     ⟨1, .google, "s1", false, 200⟩ (by decide) (by decide) (by decide)
     (by decide) (by decide)).2.2⟩
